import Mathlib

/-!
Verification of the PromptLab tagging subsystem.

This file gives a shallow embedding, in Lean 4, of the tagging core of the
PromptLab backend (files `backend/app/utils.py`, `backend/app/storage.py`,
`backend/app/api.py`, `backend/app/models.py`) and proves the stated
properties of that code.

Modelling conventions:
* Python strings are Lean `String` (a packed `List Char`); `str.strip()`,
  `str.lower()`, `len` are modelled on the underlying character list.
* Python dicts (`_prompts`, `_tags`, `_tag_by_name`, `_prompt_tags`) are
  association lists in insertion order: writing an existing key updates the
  entry in place, writing a fresh key appends, exactly as a Python dict.
* Python sets of tag ids are lists in insertion order with deduplicating
  insertion; the set operations used by the source (`update`, `-=`,
  `discard`, `set(...)`) are modelled by `setUnion`, `setDiff`,
  `setDiscard`, `setOfList`.
* `datetime` timestamps are opaque `Nat` values; `uuid4()` ids are `String`
  parameters of the operations that generate them.
* A FastAPI handler raising `HTTPException` is modelled as a function into
  `Except ApiErr ...`; an `.error` result carries no storage, matching the
  fact that every `raise` in the source happens before any mutation of the
  affected request (constructors record which HTTP error was raised).
-/

/-! ## Python string primitives -/

/-- The ASCII whitespace characters stripped by Python `str.strip()`:
space, tab, newline, carriage return, vertical tab, form feed. -/
def pyIsSpace (c : Char) : Bool :=
  c.toNat = 32 || c.toNat = 9 || c.toNat = 10 || c.toNat = 13 ||
  c.toNat = 11 || c.toNat = 12

/-- `str.strip()` on the character list: drop whitespace from both ends. -/
def pyStripList (l : List Char) : List Char :=
  (l.dropWhile pyIsSpace).rdropWhile pyIsSpace

/-- Python `str.strip()`. -/
def pyStrip (s : String) : String := String.mk (pyStripList s.data)

/-- Python `str.lower()` (ASCII case mapping, which is all the source needs:
stored names are validated to `[a-z0-9_-]+`). -/
def pyLower (s : String) : String := String.mk (s.data.map Char.toLower)

/-- Python `len(s)`: the number of characters. -/
def pyLen (s : String) : Nat := s.data.length

/-- Lexicographic comparison of character lists by code point, as used by
Python string `<=`. -/
def charListLe : List Char → List Char → Bool
  | [], _ => true
  | _ :: _, [] => false
  | a :: as, b :: bs =>
    if a < b then true else if b < a then false else charListLe as bs

/-- Python string `<=` (code point lexicographic). -/
def pyStrLe (a b : String) : Bool := charListLe a.data b.data

/-- Strict lexicographic comparison of character lists by code point
(Python string `<`). -/
def charListLt : List Char → List Char → Bool
  | [], [] => false
  | [], _ :: _ => true
  | _ :: _, [] => false
  | a :: as, b :: bs =>
    if a < b then true else if b < a then false else charListLt as bs

/-- Insert `x` into an already sorted list, before the first element not
strictly below it (this keeps equal keys in their original order). -/
def insertSorted {α : Type} (lt : α → α → Bool) (x : α) : List α → List α
  | [] => [x]
  | y :: ys => if lt y x then y :: insertSorted lt x ys else x :: y :: ys

/-- Python `sorted(...)`: Python guarantees a stable sort, and a stable sort
is uniquely determined by its key order together with the input order of
equal keys, so the structurally recursive stable insertion sort is an exact
model of it. -/
def pySorted {α : Type} (lt : α → α → Bool) (l : List α) : List α :=
  l.foldr (insertSorted lt) []

/-! ## Data model (`backend/app/models.py`)

`Tag`, `Prompt`, `Collection` carry the fields of the corresponding pydantic
models; `created_at` / `updated_at` timestamps are opaque `Nat`. -/

/-- `models.Tag`: `{id, name, created_at}`. -/
structure Tag where
  id : String
  name : String
  created_at : Nat
deriving DecidableEq, Repr

/-- `models.Prompt`: full prompt resource; `tags` is the derived field filled
in by `_enrich_prompt_with_tags` for responses. -/
structure Prompt where
  id : String
  title : String
  content : String
  description : Option String
  collection_id : Option String
  created_at : Nat
  updated_at : Nat
  tags : List Tag
deriving DecidableEq, Repr

/-- `models.Collection`. -/
structure Collection where
  id : String
  name : String
  description : Option String
  created_at : Nat
deriving DecidableEq, Repr

/-! ## Python dict and set primitives -/

/-- Python `d.get(k)` / `d[k]` lookup on an association list. -/
def dictGet {α : Type} (d : List (String × α)) (k : String) : Option α :=
  match d with
  | [] => none
  | e :: rest => if e.1 = k then some e.2 else dictGet rest k

/-- Python `d[k] = v`: update in place when the key exists, append when it
does not (Python dicts preserve insertion order). -/
def dictSet {α : Type} (d : List (String × α)) (k : String) (v : α) :
    List (String × α) :=
  if (dictGet d k).isSome then
    d.map (fun e => if e.1 = k then (k, v) else e)
  else
    d ++ [(k, v)]

/-- Python `del d[k]`. -/
def dictDel {α : Type} (d : List (String × α)) (k : String) :
    List (String × α) :=
  d.filter (fun e => decide (e.1 ≠ k))

/-- Python `set.add` on the insertion-ordered list model of a set. -/
def setInsert (s : List String) (x : String) : List String :=
  if x ∈ s then s else s ++ [x]

/-- Python `s.update(t)` (set union into `s`). -/
def setUnion (s t : List String) : List String := t.foldl setInsert s

/-- Python `set(t)` from a list. -/
def setOfList (t : List String) : List String := setUnion [] t

/-- Python `s -= t` (set difference). -/
def setDiff (s t : List String) : List String :=
  s.filter (fun x => decide (x ∉ t))

/-- Python `s.discard(x)`. -/
def setDiscard (s : List String) (x : String) : List String :=
  s.filter (fun y => decide (y ≠ x))

/-- `list(dict.fromkeys(l))`: deduplicate preserving first occurrence. -/
def pyDedup (l : List String) : List String :=
  l.foldl setInsert []

/-! ## Storage layer (`backend/app/storage.py`)

The `Storage` class holds five dictionaries; `_prompt_tags` maps a prompt id
to the set of attached tag ids. -/

/-- The in-memory `Storage` instance. -/
structure Storage where
  prompts : List (String × Prompt)
  collections : List (String × Collection)
  tags : List (String × Tag)
  tag_by_name : List (String × Tag)
  prompt_tags : List (String × List String)
deriving DecidableEq, Repr

/-- A freshly constructed (or `clear()`-ed) store. -/
def emptyStorage : Storage := ⟨[], [], [], [], []⟩

/-- `Storage.create_prompt`. -/
def Storage.create_prompt (s : Storage) (p : Prompt) : Storage :=
  { s with prompts := dictSet s.prompts p.id p }

/-- `Storage.get_prompt`. -/
def Storage.get_prompt (s : Storage) (pid : String) : Option Prompt :=
  dictGet s.prompts pid

/-- `Storage.get_all_prompts` (`dict.values()` in insertion order). -/
def Storage.get_all_prompts (s : Storage) : List Prompt :=
  s.prompts.map Prod.snd

/-- `Storage.update_prompt`: replace only when the id already exists. -/
def Storage.update_prompt (s : Storage) (pid : String) (p : Prompt) :
    Option Prompt × Storage :=
  if (dictGet s.prompts pid).isSome then
    (some p, { s with prompts := dictSet s.prompts pid p })
  else (none, s)

/-- `Storage.delete_prompt`: remove the prompt and, when present, its
association entry; report whether the prompt existed. -/
def Storage.delete_prompt (s : Storage) (pid : String) : Bool × Storage :=
  if (dictGet s.prompts pid).isSome then
    (true,
      { s with
        prompts := dictDel s.prompts pid
        prompt_tags :=
          if (dictGet s.prompt_tags pid).isSome then dictDel s.prompt_tags pid
          else s.prompt_tags })
  else (false, s)

/-- `Storage.create_tag`: store under `tag.id` and index under `tag.name`. -/
def Storage.create_tag (s : Storage) (t : Tag) : Storage :=
  { s with
    tags := dictSet s.tags t.id t
    tag_by_name := dictSet s.tag_by_name t.name t }

/-- `Storage.get_tag`. -/
def Storage.get_tag (s : Storage) (tid : String) : Option Tag :=
  dictGet s.tags tid

/-- `Storage.get_tag_by_name`. -/
def Storage.get_tag_by_name (s : Storage) (n : String) : Option Tag :=
  dictGet s.tag_by_name n

/-- `Storage.get_all_tags`. -/
def Storage.get_all_tags (s : Storage) : List Tag :=
  s.tags.map Prod.snd

/-- `Storage.delete_tag`: purge the tag record, its name-index entry, and
discard its id from the association set of every prompt. -/
def Storage.delete_tag (s : Storage) (tid : String) : Bool × Storage :=
  match dictGet s.tags tid with
  | none => (false, s)
  | some tg =>
    (true,
      { s with
        tags := dictDel s.tags tid
        tag_by_name :=
          if (dictGet s.tag_by_name tg.name).isSome then
            dictDel s.tag_by_name tg.name
          else s.tag_by_name
        prompt_tags :=
          s.prompt_tags.map (fun e => (e.1, setDiscard e.2 tid)) })

/-- `Storage.attach_tags`: create the association entry when absent, then
union the given tag ids in (additive). -/
def Storage.attach_tags (s : Storage) (pid : String) (tids : List String) :
    Storage :=
  let cur := (dictGet s.prompt_tags pid).getD []
  { s with prompt_tags := dictSet s.prompt_tags pid (setUnion cur tids) }

/-- `Storage.detach_tags`: remove the ids from the association set when the
prompt has an entry; otherwise do nothing. -/
def Storage.detach_tags (s : Storage) (pid : String) (tids : List String) :
    Storage :=
  match dictGet s.prompt_tags pid with
  | none => s
  | some cur =>
    { s with prompt_tags := dictSet s.prompt_tags pid (setDiff cur tids) }

/-- `Storage.set_tags`: full replacement of the association set. -/
def Storage.set_tags (s : Storage) (pid : String) (tids : List String) :
    Storage :=
  { s with prompt_tags := dictSet s.prompt_tags pid (setOfList tids) }

/-- Comparison key of `sorted(tags, key=lambda t: t.name)`, non-strict. -/
def tagNameLe (a b : Tag) : Bool := pyStrLe a.name b.name

/-- Comparison key of `sorted(tags, key=lambda t: t.name)`, strict. -/
def tagNameLt (a b : Tag) : Bool := charListLt a.name.data b.name.data

/-- `Storage.get_tags_for_prompt`: resolve the association set, dropping ids
whose tag no longer exists, and sort by name ascending. -/
def Storage.get_tags_for_prompt (s : Storage) (pid : String) : List Tag :=
  let tag_ids := (dictGet s.prompt_tags pid).getD []
  let tags := tag_ids.filterMap (fun tid => dictGet s.tags tid)
  pySorted tagNameLt tags

/-- `Storage.get_prompt_count_for_tag`. -/
def Storage.get_prompt_count_for_tag (s : Storage) (tid : String) : Nat :=
  (s.prompt_tags.filter (fun e => decide (tid ∈ e.2))).length

/-- `Storage.create_collection`. -/
def Storage.create_collection (s : Storage) (c : Collection) : Storage :=
  { s with collections := dictSet s.collections c.id c }

/-- `Storage.get_collection`. -/
def Storage.get_collection (s : Storage) (cid : String) : Option Collection :=
  dictGet s.collections cid

/-- `Storage.delete_collection` (no cascade at the storage layer). -/
def Storage.delete_collection (s : Storage) (cid : String) : Bool × Storage :=
  if (dictGet s.collections cid).isSome then
    (true, { s with collections := dictDel s.collections cid })
  else (false, s)

/-- `Storage.get_prompts_by_collection`. -/
def Storage.get_prompts_by_collection (s : Storage) (cid : String) :
    List Prompt :=
  (s.prompts.map Prod.snd).filter (fun p => decide (p.collection_id = some cid))

/-! ## Pure helpers (`backend/app/utils.py`) -/

/-- `utils.filter_prompts_by_tags`: keep prompts by tag names; `"any"`
requires at least one requested name on the prompt, every other mode value
requires all of them; empty `tag_names` means no filtering. The Python
result-accumulation loop is an order-preserving filter. -/
def filter_prompts_by_tags (prompts : List Prompt) (tag_names : List String)
    (matchMode : String) : List Prompt :=
  if tag_names.isEmpty then prompts
  else
    let tag_set := tag_names.map pyLower
    prompts.filter (fun p =>
      let prompt_tag_names := p.tags.map (fun t => pyLower t.name)
      if matchMode == "any" then
        tag_set.any (fun n => prompt_tag_names.contains n)
      else
        tag_set.all (fun n => prompt_tag_names.contains n))

/-- `utils.filter_prompts_by_collection`. -/
def filter_prompts_by_collection (prompts : List Prompt) (cid : String) :
    List Prompt :=
  prompts.filter (fun p => decide (p.collection_id = some cid))

/-! ## API layer (`backend/app/api.py`)

Each FastAPI handler becomes a function `Storage → ... → Except ApiErr ...`.
Request-body validation done by pydantic before the handler runs (field
`min_length` / `max_length` bounds of `models.py`) is the first check of each
function and yields `ApiErr.requestInvalid`. Ids generated by `uuid4()` and
timestamps from `get_current_time()` are explicit parameters. -/

/-- The HTTP errors raised by the handlers of the tagging core.
Constructors record status and the data of the `detail` string:
* `requestInvalid` — 422 raised by pydantic request validation;
* `emptyName` — 422 "Tag name cannot be empty or whitespace only.";
* `invalidChars` — 422 for a name not matching `[a-z0-9_-]+`;
* `conflict n` — 409, duplicate normalised tag name `n`;
* `notFound` — 404 for a missing prompt, tag, or collection;
* `collectionNotFound` — 400 "Collection not found";
* `tagsNotFound ids` — 400, `detail` lists exactly the ids in `ids`. -/
inductive ApiErr where
  | requestInvalid : ApiErr
  | emptyName : ApiErr
  | invalidChars : ApiErr
  | conflict (name : String) : ApiErr
  | notFound : ApiErr
  | collectionNotFound : ApiErr
  | tagsNotFound (invalid : List String) : ApiErr
deriving DecidableEq, Repr

deriving instance DecidableEq for Except

/-- `TAG_NAME_PATTERN = re.compile(r"^[a-z0-9_-]+$")` applied with
`.match` to an already stripped string (no trailing newline can remain, so
full-match of one or more characters of the class). -/
def tagNamePat (s : String) : Bool :=
  !s.data.isEmpty &&
  s.data.all (fun c =>
    decide (('a' ≤ c ∧ c ≤ 'z') ∨ ('0' ≤ c ∧ c ≤ '9') ∨ c = '_' ∨ c = '-'))

/-- `api._normalise_tag_name`: `name.strip().lower()`. -/
def _normalise_tag_name (name : String) : String := pyLower (pyStrip name)

/-- `api._enrich_prompt_with_tags`: fill the derived `tags` field from the
association index. -/
def _enrich_prompt_with_tags (s : Storage) (p : Prompt) : Prompt :=
  { p with tags := s.get_tags_for_prompt p.id }

/-- `models.TagCreate` field bounds: `name` with
`min_length=1, max_length=50` checked on the raw, pre-normalisation name. -/
def tagCreateValid (raw : String) : Bool :=
  decide (1 ≤ pyLen raw ∧ pyLen raw ≤ 50)

/-- `POST /tags` (`api.create_tag`): normalise, reject empty or invalid or
duplicate names, then store a new `Tag`. -/
def api_create_tag (s : Storage) (raw : String) (newId : String) (now : Nat) :
    Except ApiErr (Tag × Storage) :=
  if !tagCreateValid raw then .error .requestInvalid
  else
    let normalised := _normalise_tag_name raw
    if normalised = "" then .error .emptyName
    else if !tagNamePat normalised then .error .invalidChars
    else if (s.get_tag_by_name normalised).isSome then
      .error (.conflict normalised)
    else
      let tag : Tag := { id := newId, name := normalised, created_at := now }
      .ok (tag, s.create_tag tag)

/-- `DELETE /tags/{tag_id}` (`api.delete_tag`): 404 when the tag does not
exist, otherwise cascade delete through `Storage.delete_tag`. -/
def api_delete_tag (s : Storage) (tid : String) : Except ApiErr Storage :=
  if (s.get_tag tid).isSome then .ok (s.delete_tag tid).2
  else .error .notFound

/-- `models.TagAssignment` bound: `tag_ids` with `min_length=1`. -/
def tagAssignmentValid (tag_ids : List String) : Bool :=
  decide (1 ≤ tag_ids.length)

/-- `POST /prompts/{prompt_id}/tags` (`api.attach_tags_to_prompt`):
deduplicate the ids, 400 with the full invalid list when any id is unknown,
otherwise attach, refresh `updated_at` and return the enriched prompt. -/
def api_attach_tags (s : Storage) (pid : String) (body_tag_ids : List String)
    (now : Nat) : Except ApiErr (Prompt × Storage) :=
  if !tagAssignmentValid body_tag_ids then .error .requestInvalid
  else
    match s.get_prompt pid with
    | none => .error .notFound
    | some existing =>
      let tag_ids := pyDedup body_tag_ids
      let invalid := tag_ids.filter (fun tid => (s.get_tag tid).isNone)
      if !invalid.isEmpty then .error (.tagsNotFound invalid)
      else
        let s1 := s.attach_tags pid (setOfList tag_ids)
        let updated := { existing with updated_at := now }
        let s2 := (s1.update_prompt pid updated).2
        .ok (_enrich_prompt_with_tags s2 ((s2.get_prompt pid).getD updated), s2)

/-- `DELETE /prompts/{prompt_id}/tags` (`api.detach_tags_from_prompt`):
detach silently ignoring absent ids, refresh `updated_at`. -/
def api_detach_tags (s : Storage) (pid : String) (body_tag_ids : List String)
    (now : Nat) : Except ApiErr (Prompt × Storage) :=
  if !tagAssignmentValid body_tag_ids then .error .requestInvalid
  else
    match s.get_prompt pid with
    | none => .error .notFound
    | some existing =>
      let s1 := s.detach_tags pid (setOfList body_tag_ids)
      let updated := { existing with updated_at := now }
      let s2 := (s1.update_prompt pid updated).2
      .ok (_enrich_prompt_with_tags s2 ((s2.get_prompt pid).getD updated), s2)

/-- `models.PromptCreate`: request body of `POST /prompts`. -/
structure PromptCreate where
  title : String
  content : String
  description : Option String
  collection_id : Option String
  tag_ids : Option (List String)
deriving DecidableEq, Repr

/-- `models.PromptBase` field bounds for a create request: `title` 1 to 200
characters, `content` at least 1, `description` at most 500. -/
def promptCreateValid (d : PromptCreate) : Bool :=
  decide (1 ≤ pyLen d.title ∧ pyLen d.title ≤ 200 ∧ 1 ≤ pyLen d.content ∧
    ∀ ds ∈ d.description, pyLen ds ≤ 500)

/-- `POST /prompts` (`api.create_prompt`): validate the collection when the
given id is truthy (non-`None` and non-empty), validate any supplied tag
ids reporting the full invalid list, then persist and attach. -/
def api_create_prompt (s : Storage) (d : PromptCreate) (newId : String)
    (now : Nat) : Except ApiErr (Prompt × Storage) :=
  if !promptCreateValid d then .error .requestInvalid
  else if (match d.collection_id with
           | some cid => cid != "" && (s.get_collection cid).isNone
           | none => false) then .error .collectionNotFound
  else
    let tag_ids := d.tag_ids.getD []
    let invalid := tag_ids.filter (fun tid => (s.get_tag tid).isNone)
    if tag_ids ≠ [] ∧ invalid ≠ [] then .error (.tagsNotFound invalid)
    else
      let prompt : Prompt :=
        { id := newId, title := d.title, content := d.content,
          description := d.description, collection_id := d.collection_id,
          created_at := now, updated_at := now, tags := [] }
      let s1 := s.create_prompt prompt
      let s2 := if tag_ids ≠ [] then s1.attach_tags prompt.id (setOfList tag_ids)
                else s1
      .ok (_enrich_prompt_with_tags s2 prompt, s2)

/-- `models.PromptUpdate`: request body of `PUT`/`PATCH /prompts/{id}`.
`none` in an outer `Option` means the field was absent from the request
body (pydantic `exclude_unset`); for `description` and `collection_id` the
inner `Option` is the value, so `some none` is an explicit `null`. An
explicit `null` for `title` or `content` is identified with omission here:
in the source it would make the final `Prompt(...)` construction raise
inside the handler (an HTTP 500, not part of the specified interface).
An explicit `null` for `tag_ids` is identified with `some []`, which the
handlers treat identically (`provided["tag_ids"] or []`). -/
structure PromptUpdate where
  title : Option String := none
  content : Option String := none
  description : Option (Option String) := none
  collection_id : Option (Option String) := none
  tag_ids : Option (List String) := none
deriving DecidableEq, Repr

/-- `models.PromptUpdate` field bounds, applied only to provided values. -/
def promptUpdateValid (d : PromptUpdate) : Bool :=
  decide ((∀ t ∈ d.title, 1 ≤ pyLen t ∧ pyLen t ≤ 200) ∧
    (∀ c ∈ d.content, 1 ≤ pyLen c) ∧
    (∀ dv ∈ d.description, ∀ ds ∈ dv, pyLen ds ≤ 500))

/-- The `tag_ids` step shared by `PUT` and `PATCH`: when the field was
provided, validate the ids (only when the list is non-empty) and replace the
association set; otherwise leave the store unchanged. -/
def promptTagIdsStep (s : Storage) (pid : String)
    (tag_ids? : Option (List String)) : Except ApiErr Storage :=
  match tag_ids? with
  | none => .ok s
  | some tl =>
    let invalid := tl.filter (fun tid => (s.get_tag tid).isNone)
    if tl ≠ [] ∧ invalid ≠ [] then .error (.tagsNotFound invalid)
    else .ok (s.set_tags pid (setOfList tl))

/-- `PUT /prompts/{prompt_id}` (`api.update_prompt`): full replacement with
fallback to existing values; a provided `tag_ids` list replaces the
association set entirely. -/
def api_update_prompt (s : Storage) (pid : String) (d : PromptUpdate)
    (now : Nat) : Except ApiErr (Prompt × Storage) :=
  if !promptUpdateValid d then .error .requestInvalid
  else
    match s.get_prompt pid with
    | none => .error .notFound
    | some existing =>
      if (match d.collection_id with
          | some (some cid) => (s.get_collection cid).isNone
          | _ => false) then .error .collectionNotFound
      else
        match promptTagIdsStep s pid d.tag_ids with
        | .error e => .error e
        | .ok s1 =>
          let updated : Prompt :=
            { id := existing.id
              title := d.title.getD existing.title
              content := d.content.getD existing.content
              description :=
                match d.description with
                | some v => v
                | none => existing.description
              collection_id :=
                match d.collection_id with
                | some v => v
                | none => existing.collection_id
              created_at := existing.created_at
              updated_at := now
              tags := [] }
          let r := s1.update_prompt pid updated
          .ok (_enrich_prompt_with_tags r.2 (r.1.getD updated), r.2)

/-- `PATCH /prompts/{prompt_id}` (`api.patch_prompt`): partial update; an
empty body returns the prompt unchanged, otherwise only provided fields are
copied over the existing record and `updated_at` is refreshed. -/
def api_patch_prompt (s : Storage) (pid : String) (d : PromptUpdate)
    (now : Nat) : Except ApiErr (Prompt × Storage) :=
  if !promptUpdateValid d then .error .requestInvalid
  else
    match s.get_prompt pid with
    | none => .error .notFound
    | some existing =>
      if d.title = none ∧ d.content = none ∧ d.description = none ∧
          d.collection_id = none ∧ d.tag_ids = none then
        .ok (_enrich_prompt_with_tags s existing, s)
      else
        if (match d.collection_id with
            | some (some cid) => (s.get_collection cid).isNone
            | _ => false) then .error .collectionNotFound
        else
          match promptTagIdsStep s pid d.tag_ids with
          | .error e => .error e
          | .ok s1 =>
            let updated : Prompt :=
              { existing with
                title := d.title.getD existing.title
                content := d.content.getD existing.content
                description :=
                  match d.description with
                  | some v => v
                  | none => existing.description
                collection_id :=
                  match d.collection_id with
                  | some v => v
                  | none => existing.collection_id
                updated_at := now }
            let r := s1.update_prompt pid updated
            .ok (_enrich_prompt_with_tags r.2 (r.1.getD updated), r.2)

/-- `DELETE /prompts/{prompt_id}` (`api.delete_prompt`). -/
def api_delete_prompt (s : Storage) (pid : String) : Except ApiErr Storage :=
  let r := s.delete_prompt pid
  if r.1 then .ok r.2 else .error .notFound

/-- `models.CollectionCreate` field bounds. -/
def collectionCreateValid (name : String) (description : Option String) :
    Bool :=
  decide (1 ≤ pyLen name ∧ pyLen name ≤ 100 ∧
    ∀ ds ∈ description, pyLen ds ≤ 500)

/-- `POST /collections` (`api.create_collection`). -/
def api_create_collection (s : Storage) (name : String)
    (description : Option String) (newId : String) (now : Nat) :
    Except ApiErr (Collection × Storage) :=
  if !collectionCreateValid name description then .error .requestInvalid
  else
    let c : Collection :=
      { id := newId, name := name, description := description,
        created_at := now }
    .ok (c, s.create_collection c)

/-- `DELETE /collections/{collection_id}` (`api.delete_collection`): 404 when
absent; otherwise delete every prompt of the collection (each deletion prunes
that prompt from the association index), then the collection itself. -/
def api_delete_collection (s : Storage) (cid : String) :
    Except ApiErr Storage :=
  if (s.get_collection cid).isNone then .error .notFound
  else
    let prompts_to_delete := s.get_prompts_by_collection cid
    let s1 := prompts_to_delete.foldl (fun st p => (st.delete_prompt p.id).2) s
    .ok (s1.delete_collection cid).2

/-! ## The tag-filter stage of `GET /prompts` (`api.list_prompts`)

`list_prompts` splits the `tags` query parameter at commas and runs

    tag_names = [t.strip().lower() for t in tags.split(",") if t.strip()]
    if tag_names:
        prompts = filter_prompts_by_tags(prompts, tag_names, match=tag_match)

over the prompts already enriched with their tag lists. The stage below
receives the split pieces (`requested = tags.split(",")`). -/

/-- The tag-filter stage of `api.list_prompts` on the comma-split pieces of
the `tags` parameter. -/
def list_prompts_tag_stage (prompts : List Prompt) (requested : List String)
    (tag_match : String) : List Prompt :=
  let tag_names :=
    (requested.filter (fun t => decide (pyStrip t ≠ ""))).map
      (fun t => pyLower (pyStrip t))
  if tag_names ≠ [] then filter_prompts_by_tags prompts tag_names tag_match
  else prompts

/-- Reference definition of the tag filter, written from the specification
text: normalise the requested names (trim, lowercase) and remove blanks; an
empty result means no filtering; mode `ANY` (`tag_match = "any"`) keeps a
prompt iff the requested set intersects the set of its tag names, every
other mode (`ALL`, the default) keeps it iff the requested set is a subset;
prompt tag names are compared in stored lowercase form. -/
def tagFilterRef (prompts : List Prompt) (requested : List String)
    (tag_match : String) : List Prompt :=
  let names := (requested.map _normalise_tag_name).filter (fun n => decide (n ≠ ""))
  if names = [] then prompts
  else if tag_match = "any" then
    prompts.filter (fun p =>
      names.any (fun n => (p.tags.map (fun t => pyLower t.name)).contains n))
  else
    prompts.filter (fun p =>
      names.all (fun n => (p.tags.map (fun t => pyLower t.name)).contains n))

/-! ## Invariants and reachable states -/

/-- Referential integrity of the association index: every tag id in any
association set resolves in the tag store, and every prompt id keyed in the
index resolves in the prompt store. -/
def AssocIntegrity (s : Storage) : Prop :=
  (∀ e ∈ s.prompt_tags, ∀ tid ∈ e.2, (dictGet s.tags tid).isSome) ∧
  (∀ e ∈ s.prompt_tags, (dictGet s.prompts e.1).isSome)

instance (s : Storage) : Decidable (AssocIntegrity s) := by
  unfold AssocIntegrity; infer_instance

/-- The tag store keys each record by its own id, as `Storage.create_tag`
does (`self._tags[tag.id] = tag`). -/
def TagKeysConsistent (s : Storage) : Prop :=
  ∀ e ∈ s.tags, e.2.id = e.1

instance (s : Storage) : Decidable (TagKeysConsistent s) := by
  unfold TagKeysConsistent; infer_instance

/-- The states reachable from a fresh store through the public operations of
the API (every success of any handler is a step; a handler error leaves the
store as it was). -/
inductive Reachable : Storage → Prop where
  | empty : Reachable emptyStorage
  | create_tag {s raw nid now t s1}
      (hs : Reachable s) (hop : api_create_tag s raw nid now = .ok (t, s1)) :
      Reachable s1
  | delete_tag {s tid s1}
      (hs : Reachable s) (hop : api_delete_tag s tid = .ok s1) :
      Reachable s1
  | create_prompt {s d nid now p s1}
      (hs : Reachable s) (hop : api_create_prompt s d nid now = .ok (p, s1)) :
      Reachable s1
  | update_prompt {s pid d now p s1}
      (hs : Reachable s) (hop : api_update_prompt s pid d now = .ok (p, s1)) :
      Reachable s1
  | patch_prompt {s pid d now p s1}
      (hs : Reachable s) (hop : api_patch_prompt s pid d now = .ok (p, s1)) :
      Reachable s1
  | delete_prompt {s pid s1}
      (hs : Reachable s) (hop : api_delete_prompt s pid = .ok s1) :
      Reachable s1
  | attach_tags {s pid tids now p s1}
      (hs : Reachable s) (hop : api_attach_tags s pid tids now = .ok (p, s1)) :
      Reachable s1
  | detach_tags {s pid tids now p s1}
      (hs : Reachable s) (hop : api_detach_tags s pid tids now = .ok (p, s1)) :
      Reachable s1
  | create_collection {s nm ds nid now c s1}
      (hs : Reachable s)
      (hop : api_create_collection s nm ds nid now = .ok (c, s1)) :
      Reachable s1
  | delete_collection {s cid s1}
      (hs : Reachable s) (hop : api_delete_collection s cid = .ok s1) :
      Reachable s1

/-! ## Lemmas about the dict and set primitives -/

theorem dictGet_append {α : Type} (d1 d2 : List (String × α)) (x : String) :
    dictGet (d1 ++ d2) x = (dictGet d1 x).or (dictGet d2 x) := by
  induction d1 with
  | nil => simp [dictGet]
  | cons e rest ih =>
    obtain ⟨k1, v1⟩ := e
    by_cases hx : k1 = x <;> simp [dictGet, hx, ih]

theorem dictGet_mapReplace {α : Type} (d : List (String × α)) (k : String)
    (v : α) (x : String) :
    dictGet (d.map (fun e => if e.1 = k then (k, v) else e)) x =
      if x = k then (dictGet d k).map (fun _ => v) else dictGet d x := by
  induction d with
  | nil => by_cases hx : x = k <;> simp [dictGet, hx]
  | cons e rest ih =>
    obtain ⟨k1, v1⟩ := e
    by_cases he : k1 = k
    · by_cases hx : x = k
      · subst hx; subst he; simp [dictGet, ih]
      · have hkx : ¬ k = x := fun h => hx h.symm
        subst he
        simp [dictGet, hkx, hx, ih]
    · by_cases hx : k1 = x
      · have hxk : ¬ x = k := fun h => he (by rw [hx, h])
        simp [dictGet, he, hx, hxk]
      · simp [dictGet, he, hx, ih]

theorem dictGet_dictSet {α : Type} (d : List (String × α)) (k : String)
    (v : α) (x : String) :
    dictGet (dictSet d k v) x = if x = k then some v else dictGet d x := by
  unfold dictSet
  split
  case isTrue h =>
    rw [dictGet_mapReplace]
    by_cases hx : x = k
    · obtain ⟨w, hw⟩ := Option.isSome_iff_exists.mp h
      simp [hx, hw]
    · simp [hx]
  case isFalse h =>
    rw [dictGet_append]
    have hnone : dictGet d k = none := by
      cases hd : dictGet d k with
      | none => rfl
      | some w => rw [hd] at h; simp at h
    by_cases hx : x = k
    · subst hx; simp [hnone, dictGet]
    · simp only [dictGet]
      rw [if_neg (fun hh : k = x => hx hh.symm), if_neg hx, Option.or_none]

theorem dictGet_dictDel {α : Type} (d : List (String × α)) (k : String)
    (x : String) :
    dictGet (dictDel d k) x = if x = k then none else dictGet d x := by
  induction d with
  | nil => by_cases hx : x = k <;> simp [dictGet, dictDel, hx]
  | cons e rest ih =>
    obtain ⟨k1, v1⟩ := e
    by_cases he : k1 = k
    · subst he
      have hskip : dictDel ((k1, v1) :: rest) k1 = dictDel rest k1 := by
        simp [dictDel, List.filter_cons]
      rw [hskip, ih]
      by_cases hx : x = k1
      · simp [dictGet, hx]
      · rw [if_neg hx, if_neg hx]
        simp only [dictGet]
        rw [if_neg (fun hh : k1 = x => hx hh.symm)]
    · have hkeep :
          dictDel ((k1, v1) :: rest) k = (k1, v1) :: dictDel rest k := by
        simp [dictDel, List.filter_cons, he]
      rw [hkeep]
      by_cases hx : k1 = x
      · have hxk : ¬ x = k := fun hh => he (by rw [hx, hh])
        simp [dictGet, hx, hxk]
      · simp only [dictGet, if_neg hx]
        rw [ih]

theorem dictGet_eq_none_iff {α : Type} (d : List (String × α)) (k : String) :
    dictGet d k = none ↔ ∀ e ∈ d, e.1 ≠ k := by
  induction d with
  | nil => simp [dictGet]
  | cons e rest ih =>
    obtain ⟨k1, v1⟩ := e
    by_cases he : k1 = k <;> simp [dictGet, he, ih]

theorem dictGet_mem {α : Type} {d : List (String × α)} {k : String} {v : α}
    (h : dictGet d k = some v) : (k, v) ∈ d := by
  induction d with
  | nil => simp [dictGet] at h
  | cons e rest ih =>
    obtain ⟨k1, v1⟩ := e
    by_cases he : k1 = k
    · subst he
      simp [dictGet] at h
      simp [h]
    · simp [dictGet, he] at h
      simp [ih h]

theorem mem_dictSet {α : Type} {d : List (String × α)} {k : String} {v : α}
    {e : String × α} (h : e ∈ dictSet d k v) :
    e = (k, v) ∨ (e ∈ d ∧ e.1 ≠ k) := by
  unfold dictSet at h
  split at h
  case isTrue hp =>
    obtain ⟨e0, he0, heq⟩ := List.mem_map.mp h
    by_cases h0 : e0.1 = k
    · left; rw [← heq]; simp [h0]
    · right
      rw [← heq]
      simp only [if_neg h0]
      exact ⟨he0, h0⟩
  case isFalse hp =>
    rcases List.mem_append.mp h with hd | hd
    · right
      refine ⟨hd, ?_⟩
      have := (dictGet_eq_none_iff d k).mp ?_ e hd
      · exact this
      · cases hg : dictGet d k with
        | none => rfl
        | some w => rw [hg] at hp; simp at hp
    · left; simpa using hd

theorem mem_dictDel {α : Type} {d : List (String × α)} {k : String}
    {e : String × α} : e ∈ dictDel d k ↔ e ∈ d ∧ e.1 ≠ k := by
  unfold dictDel
  simp [List.mem_filter]

theorem mem_setInsert {s : List String} {y x : String} :
    x ∈ setInsert s y ↔ x ∈ s ∨ x = y := by
  unfold setInsert
  split
  case isTrue h =>
    constructor
    · exact fun hx => Or.inl hx
    · rintro (hx | hx)
      · exact hx
      · rw [hx]; exact h
  case isFalse h => simp

theorem mem_setUnion {t s : List String} {x : String} :
    x ∈ setUnion s t ↔ x ∈ s ∨ x ∈ t := by
  induction t generalizing s with
  | nil => simp [setUnion]
  | cons y ys ih =>
    unfold setUnion at ih ⊢
    simp only [List.foldl_cons]
    rw [ih]
    rw [mem_setInsert]
    simp only [List.mem_cons]
    tauto

theorem mem_setOfList {t : List String} {x : String} :
    x ∈ setOfList t ↔ x ∈ t := by
  unfold setOfList
  rw [mem_setUnion]
  simp

theorem mem_setDiff {s t : List String} {x : String} :
    x ∈ setDiff s t ↔ x ∈ s ∧ x ∉ t := by
  unfold setDiff
  simp [List.mem_filter]

theorem mem_setDiscard {s : List String} {y x : String} :
    x ∈ setDiscard s y ↔ x ∈ s ∧ x ≠ y := by
  unfold setDiscard
  simp [List.mem_filter]

theorem mem_pyDedup {l : List String} {x : String} :
    x ∈ pyDedup l ↔ x ∈ l := by
  unfold pyDedup
  rw [show l.foldl setInsert [] = setUnion [] l from rfl, mem_setUnion]
  simp

theorem setUnion_eq_self {s t : List String} (h : ∀ x ∈ t, x ∈ s) :
    setUnion s t = s := by
  induction t generalizing s with
  | nil => rfl
  | cons y ys ih =>
    unfold setUnion at ih ⊢
    simp only [List.foldl_cons]
    have hy : setInsert s y = s := by
      unfold setInsert
      rw [if_pos (h y (by simp))]
    rw [hy]
    exact ih (fun x hx => h x (by simp [hx]))

theorem setDiff_eq_self {s t : List String} (h : ∀ x ∈ s, x ∉ t) :
    setDiff s t = s := by
  unfold setDiff
  apply List.filter_eq_self.mpr
  intro x hx
  simpa using h x hx

theorem mem_dictSet_key_eq {α : Type} {d : List (String × α)} {k : String}
    {v : α} {e : String × α} (h : e ∈ dictSet d k v) (hk : e.1 = k) :
    e = (k, v) := by
  rcases mem_dictSet h with heq | ⟨_, hne⟩
  · exact heq
  · exact absurd hk hne

theorem dictSet_eq_self {α : Type} {d : List (String × α)} {k : String}
    {v : α} (hs : (dictGet d k).isSome)
    (hv : ∀ e ∈ d, e.1 = k → e.2 = v) : dictSet d k v = d := by
  unfold dictSet
  rw [if_pos hs]
  have hfix : ∀ e ∈ d, (if e.1 = k then (k, v) else e) = id e := by
    intro e he
    by_cases h : e.1 = k
    · rw [if_pos h]
      obtain ⟨a, b⟩ := e
      have hb := hv (a, b) he h
      simp only at h hb
      rw [h, hb]
      rfl
    · rw [if_neg h]
      rfl
  rw [List.map_congr_left hfix, List.map_id]

/-! ## Preservation of referential integrity, storage layer -/

theorem assocIntegrity_create_tag {s : Storage} (t : Tag)
    (h : AssocIntegrity s) : AssocIntegrity (s.create_tag t) := by
  obtain ⟨h1, h2⟩ := h
  refine ⟨?_, ?_⟩
  · intro e he tid htid
    have := h1 e he tid htid
    show (dictGet (dictSet s.tags t.id t) tid).isSome
    rw [dictGet_dictSet]
    by_cases hx : tid = t.id <;> simp [hx, this]
  · exact h2

theorem assocIntegrity_delete_tag {s : Storage} (tid : String)
    (h : AssocIntegrity s) : AssocIntegrity (s.delete_tag tid).2 := by
  obtain ⟨h1, h2⟩ := h
  unfold Storage.delete_tag
  cases hg : dictGet s.tags tid with
  | none => exact ⟨h1, h2⟩
  | some tg =>
    refine ⟨?_, ?_⟩
    · intro e he tid2 htid2
      simp only [List.mem_map] at he
      obtain ⟨e0, he0, heq⟩ := he
      rw [← heq] at htid2
      simp only at htid2
      obtain ⟨hmem, hne⟩ := mem_setDiscard.mp htid2
      have := h1 e0 he0 tid2 hmem
      show (dictGet (dictDel s.tags tid) tid2).isSome
      rw [dictGet_dictDel, if_neg hne]
      exact this
    · intro e he
      simp only [List.mem_map] at he
      obtain ⟨e0, he0, heq⟩ := he
      rw [← heq]
      exact h2 e0 he0

theorem assocIntegrity_create_prompt {s : Storage} (p : Prompt)
    (h : AssocIntegrity s) : AssocIntegrity (s.create_prompt p) := by
  obtain ⟨h1, h2⟩ := h
  refine ⟨h1, ?_⟩
  intro e he
  have := h2 e he
  show (dictGet (dictSet s.prompts p.id p) e.1).isSome
  rw [dictGet_dictSet]
  by_cases hx : e.1 = p.id <;> simp [hx, this]

theorem assocIntegrity_update_prompt {s : Storage} (pid : String) (p : Prompt)
    (h : AssocIntegrity s) : AssocIntegrity (s.update_prompt pid p).2 := by
  obtain ⟨h1, h2⟩ := h
  unfold Storage.update_prompt
  split
  · refine ⟨h1, ?_⟩
    intro e he
    have := h2 e he
    show (dictGet (dictSet s.prompts pid p) e.1).isSome
    rw [dictGet_dictSet]
    by_cases hx : e.1 = pid <;> simp [hx, this]
  · exact ⟨h1, h2⟩

theorem assocIntegrity_delete_prompt {s : Storage} (pid : String)
    (h : AssocIntegrity s) : AssocIntegrity (s.delete_prompt pid).2 := by
  obtain ⟨h1, h2⟩ := h
  unfold Storage.delete_prompt
  split
  case isFalse => exact ⟨h1, h2⟩
  case isTrue hp =>
    refine ⟨?_, ?_⟩
    · intro e he tid htid
      split at he
      · exact h1 e (mem_dictDel.mp he).1 tid htid
      · exact h1 e he tid htid
    · intro e he
      split at he
      case isTrue hpt =>
        obtain ⟨he0, hne⟩ := mem_dictDel.mp he
        have := h2 e he0
        show (dictGet (dictDel s.prompts pid) e.1).isSome
        rw [dictGet_dictDel, if_neg hne]
        exact this
      case isFalse hpt =>
        have hnone : dictGet s.prompt_tags pid = none := by
          cases hg : dictGet s.prompt_tags pid with
          | none => rfl
          | some w => rw [hg] at hpt; simp at hpt
        have hne : e.1 ≠ pid := (dictGet_eq_none_iff _ _).mp hnone e he
        have := h2 e he
        show (dictGet (dictDel s.prompts pid) e.1).isSome
        rw [dictGet_dictDel, if_neg hne]
        exact this

theorem assocIntegrity_attach_tags {s : Storage} (pid : String)
    (tids : List String) (hp : (dictGet s.prompts pid).isSome)
    (ht : ∀ tid ∈ tids, (dictGet s.tags tid).isSome)
    (h : AssocIntegrity s) : AssocIntegrity (s.attach_tags pid tids) := by
  obtain ⟨h1, h2⟩ := h
  unfold Storage.attach_tags
  refine ⟨?_, ?_⟩
  · intro e he tid htid
    rcases mem_dictSet he with heq | ⟨he0, _⟩
    · rw [heq] at htid
      simp only at htid
      rcases mem_setUnion.mp htid with hcur | htids
      · cases hg : dictGet s.prompt_tags pid with
        | none => rw [hg] at hcur; simp at hcur
        | some cur =>
          rw [hg] at hcur
          exact h1 (pid, cur) (dictGet_mem hg) tid hcur
      · exact ht tid htids
    · exact h1 e he0 tid htid
  · intro e he
    rcases mem_dictSet he with heq | ⟨he0, _⟩
    · rw [heq]; exact hp
    · exact h2 e he0

theorem assocIntegrity_set_tags {s : Storage} (pid : String)
    (tids : List String) (hp : (dictGet s.prompts pid).isSome)
    (ht : ∀ tid ∈ tids, (dictGet s.tags tid).isSome)
    (h : AssocIntegrity s) : AssocIntegrity (s.set_tags pid tids) := by
  obtain ⟨h1, h2⟩ := h
  unfold Storage.set_tags
  refine ⟨?_, ?_⟩
  · intro e he tid htid
    rcases mem_dictSet he with heq | ⟨he0, _⟩
    · rw [heq] at htid
      simp only at htid
      exact ht tid (mem_setOfList.mp htid)
    · exact h1 e he0 tid htid
  · intro e he
    rcases mem_dictSet he with heq | ⟨he0, _⟩
    · rw [heq]; exact hp
    · exact h2 e he0

theorem assocIntegrity_detach_tags {s : Storage} (pid : String)
    (tids : List String) (h : AssocIntegrity s) :
    AssocIntegrity (s.detach_tags pid tids) := by
  obtain ⟨h1, h2⟩ := h
  unfold Storage.detach_tags
  cases hg : dictGet s.prompt_tags pid with
  | none => exact ⟨h1, h2⟩
  | some cur =>
    refine ⟨?_, ?_⟩
    · intro e he tid htid
      rcases mem_dictSet he with heq | ⟨he0, _⟩
      · rw [heq] at htid
        simp only at htid
        obtain ⟨hmem, _⟩ := mem_setDiff.mp htid
        exact h1 (pid, cur) (dictGet_mem hg) tid hmem
      · exact h1 e he0 tid htid
    · intro e he
      rcases mem_dictSet he with heq | ⟨he0, _⟩
      · rw [heq]
        exact h2 (pid, cur) (dictGet_mem hg)
      · exact h2 e he0

/-! ## Preservation of referential integrity, API layer -/

theorem assoc_api_create_tag {s : Storage} {raw nid : String} {now : Nat}
    {t : Tag} {s1 : Storage}
    (hop : api_create_tag s raw nid now = .ok (t, s1))
    (h : AssocIntegrity s) : AssocIntegrity s1 := by
  simp only [api_create_tag] at hop
  split at hop
  · exact absurd hop (by simp)
  split at hop
  · exact absurd hop (by simp)
  split at hop
  · exact absurd hop (by simp)
  split at hop
  · exact absurd hop (by simp)
  simp only [Except.ok.injEq, Prod.mk.injEq] at hop
  obtain ⟨-, hs1⟩ := hop
  rw [← hs1]
  exact assocIntegrity_create_tag _ h

theorem assoc_api_delete_tag {s : Storage} {tid : String} {s1 : Storage}
    (hop : api_delete_tag s tid = .ok s1) (h : AssocIntegrity s) :
    AssocIntegrity s1 := by
  simp only [api_delete_tag] at hop
  split at hop
  · simp only [Except.ok.injEq] at hop
    rw [← hop]
    exact assocIntegrity_delete_tag _ h
  · exact absurd hop (by simp)

theorem assoc_api_create_prompt {s : Storage} {d : PromptCreate}
    {nid : String} {now : Nat} {p : Prompt} {s1 : Storage}
    (hop : api_create_prompt s d nid now = .ok (p, s1))
    (h : AssocIntegrity s) : AssocIntegrity s1 := by
  simp only [api_create_prompt] at hop
  split at hop
  · exact absurd hop (by simp)
  split at hop
  · exact absurd hop (by simp)
  split at hop
  case isTrue => exact absurd hop (by simp)
  case isFalse hguard =>
    simp only [Except.ok.injEq, Prod.mk.injEq] at hop
    obtain ⟨-, hs1⟩ := hop
    rw [← hs1]
    split
    case isTrue hne =>
      have hinvalid :
          (d.tag_ids.getD []).filter
            (fun tid => (s.get_tag tid).isNone) = [] := by
        by_contra hbad
        exact hguard ⟨hne, hbad⟩
      apply assocIntegrity_attach_tags
      · show (dictGet (dictSet s.prompts nid _) nid).isSome
        rw [dictGet_dictSet, if_pos rfl]
        rfl
      · intro tid htid
        have hmem := mem_setOfList.mp htid
        have := List.filter_eq_nil_iff.mp hinvalid tid hmem
        simp only [Storage.get_tag] at this
        cases hg : dictGet s.tags tid with
        | none => rw [hg] at this; simp at this
        | some w => simp [Storage.create_prompt, hg]
      · exact assocIntegrity_create_prompt _ h
    case isFalse =>
      exact assocIntegrity_create_prompt _ h

theorem assoc_api_attach_tags {s : Storage} {pid : String}
    {tids : List String} {now : Nat} {p : Prompt} {s1 : Storage}
    (hop : api_attach_tags s pid tids now = .ok (p, s1))
    (h : AssocIntegrity s) : AssocIntegrity s1 := by
  simp only [api_attach_tags] at hop
  split at hop
  · exact absurd hop (by simp)
  split at hop
  case h_1 => exact absurd hop (by simp)
  case h_2 existing hex =>
    split at hop
    case isTrue => exact absurd hop (by simp)
    case isFalse hval =>
      simp only [Except.ok.injEq, Prod.mk.injEq] at hop
      obtain ⟨-, hs1⟩ := hop
      rw [← hs1]
      apply assocIntegrity_update_prompt
      apply assocIntegrity_attach_tags
      · simpa [Storage.get_prompt] using congrArg Option.isSome hex
      · intro tid htid
        have hmem := mem_setOfList.mp htid
        have hnil : (pyDedup tids).filter
            (fun tid => (s.get_tag tid).isNone) = [] := by
          cases hf : (pyDedup tids).filter (fun tid => (s.get_tag tid).isNone)
          · rfl
          · rw [hf] at hval; simp at hval
        have := List.filter_eq_nil_iff.mp hnil tid hmem
        simp only [Storage.get_tag] at this
        cases hg : dictGet s.tags tid with
        | none => rw [hg] at this; simp at this
        | some w => simp [Storage.create_prompt, hg]
      · exact h

theorem assoc_api_detach_tags {s : Storage} {pid : String}
    {tids : List String} {now : Nat} {p : Prompt} {s1 : Storage}
    (hop : api_detach_tags s pid tids now = .ok (p, s1))
    (h : AssocIntegrity s) : AssocIntegrity s1 := by
  simp only [api_detach_tags] at hop
  split at hop
  · exact absurd hop (by simp)
  split at hop
  case h_1 => exact absurd hop (by simp)
  case h_2 existing hex =>
    simp only [Except.ok.injEq, Prod.mk.injEq] at hop
    obtain ⟨-, hs1⟩ := hop
    rw [← hs1]
    exact assocIntegrity_update_prompt _ _
      (assocIntegrity_detach_tags _ _ h)

theorem assoc_promptTagIdsStep {s : Storage} {pid : String}
    {tag_ids? : Option (List String)} {s1 : Storage}
    (hp : (dictGet s.prompts pid).isSome)
    (hop : promptTagIdsStep s pid tag_ids? = .ok s1)
    (h : AssocIntegrity s) : AssocIntegrity s1 := by
  simp only [promptTagIdsStep] at hop
  split at hop
  · simp only [Except.ok.injEq] at hop
    rw [← hop]; exact h
  case h_2 tl =>
    split at hop
    case isTrue => exact absurd hop (by simp)
    case isFalse hguard =>
      simp only [Except.ok.injEq] at hop
      rw [← hop]
      apply assocIntegrity_set_tags _ _ hp _ h
      intro tid htid
      have hmem := mem_setOfList.mp htid
      have hne : tl ≠ [] := by
        intro hnil
        rw [hnil] at hmem
        simp at hmem
      have hinvalid : tl.filter (fun tid => (s.get_tag tid).isNone) = [] := by
        by_contra hbad
        exact hguard ⟨hne, hbad⟩
      have := List.filter_eq_nil_iff.mp hinvalid tid hmem
      simp only [Storage.get_tag] at this
      cases hg : dictGet s.tags tid with
      | none => rw [hg] at this; simp at this
      | some w => simp [hg]

theorem assoc_api_update_prompt {s : Storage} {pid : String}
    {d : PromptUpdate} {now : Nat} {p : Prompt} {s1 : Storage}
    (hop : api_update_prompt s pid d now = .ok (p, s1))
    (h : AssocIntegrity s) : AssocIntegrity s1 := by
  simp only [api_update_prompt] at hop
  split at hop
  · exact absurd hop (by simp)
  split at hop
  case h_1 => exact absurd hop (by simp)
  case h_2 existing hex =>
    split at hop
    · exact absurd hop (by simp)
    split at hop
    case h_1 => exact absurd hop (by simp)
    case h_2 s2 hstep =>
      simp only [Except.ok.injEq, Prod.mk.injEq] at hop
      obtain ⟨-, hs1⟩ := hop
      rw [← hs1]
      apply assocIntegrity_update_prompt
      apply assoc_promptTagIdsStep ?_ hstep h
      simpa [Storage.get_prompt] using congrArg Option.isSome hex

theorem assoc_api_patch_prompt {s : Storage} {pid : String}
    {d : PromptUpdate} {now : Nat} {p : Prompt} {s1 : Storage}
    (hop : api_patch_prompt s pid d now = .ok (p, s1))
    (h : AssocIntegrity s) : AssocIntegrity s1 := by
  simp only [api_patch_prompt] at hop
  split at hop
  · exact absurd hop (by simp)
  split at hop
  case h_1 => exact absurd hop (by simp)
  case h_2 existing hex =>
    split at hop
    · simp only [Except.ok.injEq, Prod.mk.injEq] at hop
      obtain ⟨-, hs1⟩ := hop
      rw [← hs1]
      exact h
    split at hop
    · exact absurd hop (by simp)
    split at hop
    case h_1 => exact absurd hop (by simp)
    case h_2 s2 hstep =>
      simp only [Except.ok.injEq, Prod.mk.injEq] at hop
      obtain ⟨-, hs1⟩ := hop
      rw [← hs1]
      apply assocIntegrity_update_prompt
      apply assoc_promptTagIdsStep ?_ hstep h
      simpa [Storage.get_prompt] using congrArg Option.isSome hex

theorem assoc_api_delete_prompt {s : Storage} {pid : String} {s1 : Storage}
    (hop : api_delete_prompt s pid = .ok s1) (h : AssocIntegrity s) :
    AssocIntegrity s1 := by
  simp only [api_delete_prompt] at hop
  split at hop
  · simp only [Except.ok.injEq] at hop
    rw [← hop]
    exact assocIntegrity_delete_prompt _ h
  · exact absurd hop (by simp)

theorem assoc_api_create_collection {s : Storage} {nm : String}
    {ds : Option String} {nid : String} {now : Nat} {c : Collection}
    {s1 : Storage} (hop : api_create_collection s nm ds nid now = .ok (c, s1))
    (h : AssocIntegrity s) : AssocIntegrity s1 := by
  simp only [api_create_collection] at hop
  split at hop
  · exact absurd hop (by simp)
  simp only [Except.ok.injEq, Prod.mk.injEq] at hop
  obtain ⟨-, hs1⟩ := hop
  rw [← hs1]
  exact h

theorem assoc_api_delete_collection {s : Storage} {cid : String}
    {s1 : Storage} (hop : api_delete_collection s cid = .ok s1)
    (h : AssocIntegrity s) : AssocIntegrity s1 := by
  simp only [api_delete_collection] at hop
  split at hop
  · exact absurd hop (by simp)
  simp only [Except.ok.injEq] at hop
  rw [← hop]
  have hfold : ∀ (ps : List Prompt) (st : Storage), AssocIntegrity st →
      AssocIntegrity
        (ps.foldl (fun st p => (st.delete_prompt p.id).2) st) := by
    intro ps
    induction ps with
    | nil => intro st hst; exact hst
    | cons q qs ih =>
      intro st hst
      exact ih _ (assocIntegrity_delete_prompt _ hst)
  have h1 := hfold (s.get_prompts_by_collection cid) s h
  unfold Storage.delete_collection
  split
  · exact h1
  · exact h1

/-! ## Claim C3: referential integrity is an invariant -/

/-- C3: in every state reachable through the public operations (tag
create/delete, prompt create/update/patch/delete, attach, detach,
collection create/delete with its prompt cascade), every tag id appearing
in any association set of the prompt-tag index exists in the tag store, and
every prompt id keyed in that index exists in the prompt store. -/
theorem reachable_assoc_integrity (s : Storage) (h : Reachable s) :
    AssocIntegrity s := by
  induction h with
  | empty =>
    constructor <;> intro e he <;> simp [emptyStorage] at he
  | create_tag hs hop ih => exact assoc_api_create_tag hop ih
  | delete_tag hs hop ih => exact assoc_api_delete_tag hop ih
  | create_prompt hs hop ih => exact assoc_api_create_prompt hop ih
  | update_prompt hs hop ih => exact assoc_api_update_prompt hop ih
  | patch_prompt hs hop ih => exact assoc_api_patch_prompt hop ih
  | delete_prompt hs hop ih => exact assoc_api_delete_prompt hop ih
  | attach_tags hs hop ih => exact assoc_api_attach_tags hop ih
  | detach_tags hs hop ih => exact assoc_api_detach_tags hop ih
  | create_collection hs hop ih => exact assoc_api_create_collection hop ih
  | delete_collection hs hop ih => exact assoc_api_delete_collection hop ih

/-- Witness for C3 at the state reached by creating tag `review` and then a
prompt carrying it. -/
theorem reachable_assoc_integrity_witness :
    AssocIntegrity
      ⟨[("p1", ⟨"p1", "Title", "content123", none, none, 1, 1, []⟩)], [],
        [("t1", ⟨"t1", "review", 0⟩)], [("review", ⟨"t1", "review", 0⟩)],
        [("p1", ["t1"])]⟩ :=
  reachable_assoc_integrity _
    (Reachable.create_prompt
      (Reachable.create_tag Reachable.empty
        (by decide :
          api_create_tag emptyStorage "review" "t1" 0 =
            .ok (⟨"t1", "review", 0⟩,
              ⟨[], [], [("t1", ⟨"t1", "review", 0⟩)],
                [("review", ⟨"t1", "review", 0⟩)], []⟩)))
      (by decide :
        api_create_prompt
          ⟨[], [], [("t1", ⟨"t1", "review", 0⟩)],
            [("review", ⟨"t1", "review", 0⟩)], []⟩
          ⟨"Title", "content123", none, none, some ["t1"]⟩ "p1" 1 =
          .ok (⟨"p1", "Title", "content123", none, none, 1, 1,
                [⟨"t1", "review", 0⟩]⟩,
            ⟨[("p1", ⟨"p1", "Title", "content123", none, none, 1, 1, []⟩)],
              [], [("t1", ⟨"t1", "review", 0⟩)],
              [("review", ⟨"t1", "review", 0⟩)], [("p1", ["t1"])]⟩)))

/-! ## Claim C7: attach and detach are idempotent set operations -/

theorem dictGet_eq_of_mem_nodup {α : Type} {d : List (String × α)}
    (hnd : (d.map Prod.fst).Nodup) {e : String × α} (he : e ∈ d) :
    dictGet d e.1 = some e.2 := by
  induction d with
  | nil => simp at he
  | cons f rest ih =>
    rcases List.mem_cons.mp he with heq | hmem
    · subst heq
      simp [dictGet]
    · have hne : f.1 ≠ e.1 := by
        intro hk
        have : e.1 ∈ rest.map Prod.fst := List.mem_map.mpr ⟨e, hmem, rfl⟩
        rw [List.map_cons] at hnd
        exact (List.nodup_cons.mp hnd).1 (hk ▸ this)
      simp only [dictGet, if_neg hne]
      exact ih (List.nodup_cons.mp (by rwa [List.map_cons] at hnd)).2 hmem

/-- C7: attach and detach are idempotent set operations on the association
index: attaching `S` and then any `T ⊆ S` to a prompt leaves the store — and
hence `tags_for` of every prompt — exactly as after the first attach, and
detaching a set of ids disjoint from the association set leaves the store
untouched; both storage operations are total, so neither can fail. -/
theorem attach_detach_idempotent (s : Storage) (pid : String)
    (S T D : List String)
    (hnd : (s.prompt_tags.map Prod.fst).Nodup)
    (hsub : ∀ x ∈ T, x ∈ S)
    (hdisj : ∀ x ∈ D, x ∉ (dictGet s.prompt_tags pid).getD []) :
    (s.attach_tags pid S).attach_tags pid T = s.attach_tags pid S ∧
    s.detach_tags pid D = s := by
  constructor
  · have hcur1 :
        dictGet (s.attach_tags pid S).prompt_tags pid =
          some (setUnion ((dictGet s.prompt_tags pid).getD []) S) := by
      show dictGet (dictSet s.prompt_tags pid _) pid = _
      rw [dictGet_dictSet, if_pos rfl]
    have huT :
        setUnion (setUnion ((dictGet s.prompt_tags pid).getD []) S) T =
          setUnion ((dictGet s.prompt_tags pid).getD []) S :=
      setUnion_eq_self (fun x hx => mem_setUnion.mpr (Or.inr (hsub x hx)))
    have hself :
        dictSet
          (dictSet s.prompt_tags pid
            (setUnion ((dictGet s.prompt_tags pid).getD []) S)) pid
          (setUnion ((dictGet s.prompt_tags pid).getD []) S) =
        dictSet s.prompt_tags pid
          (setUnion ((dictGet s.prompt_tags pid).getD []) S) := by
      apply dictSet_eq_self
      · rw [dictGet_dictSet, if_pos rfl]
        rfl
      · intro e he hk
        exact congrArg Prod.snd (mem_dictSet_key_eq he hk)
    show Storage.attach_tags _ pid T = _
    simp only [Storage.attach_tags] at hcur1 ⊢
    rw [hcur1]
    simp only [Option.getD_some]
    rw [huT, hself]
  · unfold Storage.detach_tags
    cases hg : dictGet s.prompt_tags pid with
    | none => rfl
    | some cur =>
      have hdiff : setDiff cur D = cur := by
        apply setDiff_eq_self
        intro x hx hxD
        exact hdisj x hxD (by rw [hg]; exact hx)
      show { s with prompt_tags := dictSet s.prompt_tags pid (setDiff cur D) } = s
      rw [hdiff]
      have hself : dictSet s.prompt_tags pid cur = s.prompt_tags := by
        apply dictSet_eq_self
        · rw [hg]; rfl
        · intro e he hk
          have := dictGet_eq_of_mem_nodup hnd he
          rw [hk, hg] at this
          exact (Option.some.injEq _ _).mp this.symm
      rw [hself]

/-- Witness for C7: attach `{t1, t2}` then `{t1}` to `p1`, and detach the
absent `{t3}`, on a small concrete store. -/
theorem attach_detach_idempotent_witness :
    ((⟨[("p1", ⟨"p1", "T", "somecontent", none, none, 0, 0, []⟩)], [],
        [("t1", ⟨"t1", "a", 0⟩), ("t2", ⟨"t2", "b", 0⟩)],
        [("a", ⟨"t1", "a", 0⟩), ("b", ⟨"t2", "b", 0⟩)],
        [("p1", ["t1", "t2"])]⟩ :
          Storage).attach_tags "p1" ["t1", "t2"]).attach_tags "p1" ["t1"] =
      (⟨[("p1", ⟨"p1", "T", "somecontent", none, none, 0, 0, []⟩)], [],
        [("t1", ⟨"t1", "a", 0⟩), ("t2", ⟨"t2", "b", 0⟩)],
        [("a", ⟨"t1", "a", 0⟩), ("b", ⟨"t2", "b", 0⟩)],
        [("p1", ["t1", "t2"])]⟩ :
          Storage).attach_tags "p1" ["t1", "t2"] ∧
    (⟨[("p1", ⟨"p1", "T", "somecontent", none, none, 0, 0, []⟩)], [],
        [("t1", ⟨"t1", "a", 0⟩), ("t2", ⟨"t2", "b", 0⟩)],
        [("a", ⟨"t1", "a", 0⟩), ("b", ⟨"t2", "b", 0⟩)],
        [("p1", ["t1", "t2"])]⟩ :
          Storage).detach_tags "p1" ["t3"] =
      ⟨[("p1", ⟨"p1", "T", "somecontent", none, none, 0, 0, []⟩)], [],
        [("t1", ⟨"t1", "a", 0⟩), ("t2", ⟨"t2", "b", 0⟩)],
        [("a", ⟨"t1", "a", 0⟩), ("b", ⟨"t2", "b", 0⟩)],
        [("p1", ["t1", "t2"])]⟩ :=
  attach_detach_idempotent _ "p1" ["t1", "t2"] ["t1"] ["t3"]
    (by decide) (by decide) (by decide)

/-! ## Claim C2: deleting a tag cascades and purges -/

theorem mem_insertSorted {α : Type} {lt : α → α → Bool} {x y : α}
    {l : List α} : x ∈ insertSorted lt y l ↔ x = y ∨ x ∈ l := by
  induction l with
  | nil => simp [insertSorted]
  | cons z zs ih =>
    unfold insertSorted
    split
    · simp only [List.mem_cons, ih]
      try tauto
    · simp only [List.mem_cons]
      try tauto

theorem mem_pySorted {α : Type} {lt : α → α → Bool} {x : α} {l : List α} :
    x ∈ pySorted lt l ↔ x ∈ l := by
  induction l with
  | nil => simp [pySorted]
  | cons z zs ih =>
    unfold pySorted at ih ⊢
    simp only [List.foldr_cons, mem_insertSorted, List.mem_cons, ih]

/-- C2: when tag `tid` exists, `DELETE /tags/{tid}` succeeds and in the
resulting store the tag id is gone from every association set, the tag
resolves to nothing (`get_tag = none`, and no `tags_for` read of any prompt
can still produce it), while every prompt record is left in place; when
`tid` does not exist the request fails with 404 and no state is produced.
(`TagKeysConsistent` holds of every store built by `create_tag`, which keys
each record by its own id.) -/
theorem delete_tag_cascade (s : Storage) (tid : String)
    (hkc : TagKeysConsistent s) :
    (∀ tg, s.get_tag tid = some tg →
      ∃ s1, api_delete_tag s tid = .ok s1 ∧
        s1.get_tag tid = none ∧
        s1.prompts = s.prompts ∧
        (∀ e ∈ s1.prompt_tags, tid ∉ e.2) ∧
        (∀ pid, tg ∉ s1.get_tags_for_prompt pid)) ∧
    (s.get_tag tid = none → api_delete_tag s tid = .error .notFound) := by
  constructor
  · intro tg hg
    refine ⟨(s.delete_tag tid).2, ?_, ?_, ?_, ?_, ?_⟩
    · unfold api_delete_tag
      rw [if_pos (by rw [hg]; rfl)]
    · show dictGet (s.delete_tag tid).2.tags tid = none
      unfold Storage.delete_tag
      rw [show s.get_tag tid = dictGet s.tags tid from rfl] at hg
      rw [hg]
      simp only
      rw [dictGet_dictDel, if_pos rfl]
    · unfold Storage.delete_tag
      rw [show s.get_tag tid = dictGet s.tags tid from rfl] at hg
      rw [hg]
    · intro e he
      unfold Storage.delete_tag at he
      rw [show s.get_tag tid = dictGet s.tags tid from rfl] at hg
      rw [hg] at he
      simp only [List.mem_map] at he
      obtain ⟨e0, he0, heq⟩ := he
      rw [← heq]
      intro hmem
      exact (mem_setDiscard.mp hmem).2 rfl
    · intro pid hmem
      unfold Storage.get_tags_for_prompt at hmem
      rw [mem_pySorted] at hmem
      simp only [List.mem_filterMap] at hmem
      obtain ⟨k, hkmem, hk⟩ := hmem
      have hgd : (s.delete_tag tid).2.tags = dictDel s.tags tid := by
        unfold Storage.delete_tag
        rw [show s.get_tag tid = dictGet s.tags tid from rfl] at hg
        rw [hg]
      rw [hgd, dictGet_dictDel] at hk
      by_cases hkt : k = tid
      · rw [if_pos hkt] at hk
        exact absurd hk (by simp)
      · rw [if_neg hkt] at hk
        have h1 : tg.id = k := hkc _ (dictGet_mem hk)
        have h2 : tg.id = tid := hkc _ (dictGet_mem hg)
        exact hkt (h1 ▸ h2)
  · intro hg
    unfold api_delete_tag
    rw [if_neg (by rw [show s.get_tag tid = dictGet s.tags tid from rfl] at hg ⊢; rw [hg]; simp)]

/-- Witness for C2: delete tag `t1`, attached to both `p1` and `p2`, in a
concrete store; also covers the 404 branch through the same theorem. -/
theorem delete_tag_cascade_witness :
    (∀ tg,
      (⟨[("p1", ⟨"p1", "T", "somecontent", none, none, 0, 0, []⟩),
          ("p2", ⟨"p2", "U", "othercontent", none, none, 0, 0, []⟩)], [],
         [("t1", ⟨"t1", "a", 0⟩), ("t2", ⟨"t2", "b", 0⟩)],
         [("a", ⟨"t1", "a", 0⟩), ("b", ⟨"t2", "b", 0⟩)],
         [("p1", ["t1", "t2"]), ("p2", ["t1"])]⟩ : Storage).get_tag "t1" =
          some tg →
      ∃ s1,
        api_delete_tag
          ⟨[("p1", ⟨"p1", "T", "somecontent", none, none, 0, 0, []⟩),
             ("p2", ⟨"p2", "U", "othercontent", none, none, 0, 0, []⟩)], [],
            [("t1", ⟨"t1", "a", 0⟩), ("t2", ⟨"t2", "b", 0⟩)],
            [("a", ⟨"t1", "a", 0⟩), ("b", ⟨"t2", "b", 0⟩)],
            [("p1", ["t1", "t2"]), ("p2", ["t1"])]⟩ "t1" = .ok s1 ∧
        s1.get_tag "t1" = none ∧
        s1.prompts =
          [("p1", ⟨"p1", "T", "somecontent", none, none, 0, 0, []⟩),
           ("p2", ⟨"p2", "U", "othercontent", none, none, 0, 0, []⟩)] ∧
        (∀ e ∈ s1.prompt_tags, "t1" ∉ e.2) ∧
        (∀ pid, tg ∉ s1.get_tags_for_prompt pid)) ∧
    ((⟨[("p1", ⟨"p1", "T", "somecontent", none, none, 0, 0, []⟩),
         ("p2", ⟨"p2", "U", "othercontent", none, none, 0, 0, []⟩)], [],
        [("t1", ⟨"t1", "a", 0⟩), ("t2", ⟨"t2", "b", 0⟩)],
        [("a", ⟨"t1", "a", 0⟩), ("b", ⟨"t2", "b", 0⟩)],
        [("p1", ["t1", "t2"]), ("p2", ["t1"])]⟩ : Storage).get_tag "t1" =
          none →
      api_delete_tag
        ⟨[("p1", ⟨"p1", "T", "somecontent", none, none, 0, 0, []⟩),
           ("p2", ⟨"p2", "U", "othercontent", none, none, 0, 0, []⟩)], [],
          [("t1", ⟨"t1", "a", 0⟩), ("t2", ⟨"t2", "b", 0⟩)],
          [("a", ⟨"t1", "a", 0⟩), ("b", ⟨"t2", "b", 0⟩)],
          [("p1", ["t1", "t2"]), ("p2", ["t1"])]⟩ "t1" =
        .error .notFound) :=
  delete_tag_cascade _ "t1" (by decide)

/-! ## Claim C8: `tags_for` is sorted, duplicate-free, and defensive -/

theorem charListLe_eq_not_lt :
    ∀ (as bs : List Char), charListLe as bs = !charListLt bs as
  | [], [] => rfl
  | [], _ :: _ => rfl
  | _ :: _, [] => rfl
  | a :: as, b :: bs => by
    unfold charListLe charListLt
    by_cases h1 : a < b
    · simp [h1, lt_asymm h1]
    · by_cases h2 : b < a
      · simp [h1, h2]
      · simp [h1, h2, charListLe_eq_not_lt as bs]

theorem charListLt_asymm :
    ∀ {as bs : List Char}, charListLt as bs = true → charListLt bs as = false
  | [], [], _ => rfl
  | [], _ :: _, _ => rfl
  | _ :: _, [], h => by simp [charListLt] at h
  | a :: as, b :: bs, h => by
    unfold charListLt at h ⊢
    by_cases h1 : a < b
    · simp [h1, lt_asymm h1]
    · by_cases h2 : b < a
      · simp [h1, h2] at h
      · simp [h1, h2] at h ⊢
        exact charListLt_asymm h

theorem charListLe_trans :
    ∀ {as bs cs : List Char}, charListLe as bs = true →
      charListLe bs cs = true → charListLe as cs = true
  | [], _, _, _, _ => rfl
  | _ :: _, [], _, h, _ => by simp [charListLe] at h
  | _ :: _, _ :: _, [], _, h => by simp [charListLe] at h
  | a :: as, b :: bs, c :: cs, h1, h2 => by
    unfold charListLe at h1 h2 ⊢
    by_cases hab : a < b
    · by_cases hbc : b < c
      · rw [if_pos (lt_trans hab hbc)]
      · by_cases hcb : c < b
        · rw [if_neg hbc, if_pos hcb] at h2
          simp at h2
        · have hbc2 : b = c := le_antisymm (le_of_not_lt hcb) (le_of_not_lt hbc)
          rw [if_pos (hbc2 ▸ hab)]
    · by_cases hba : b < a
      · rw [if_neg hab, if_pos hba] at h1
        simp at h1
      · have hab2 : a = b := le_antisymm (le_of_not_lt hba) (le_of_not_lt hab)
        subst hab2
        by_cases hbc : a < c
        · rw [if_pos hbc]
        · by_cases hcb : c < a
          · rw [if_neg hbc, if_pos hcb] at h2
            simp at h2
          · rw [if_neg hab, if_neg hba] at h1
            rw [if_neg hbc, if_neg hcb] at h2 ⊢
            exact charListLe_trans h1 h2

theorem charListLt_negtrans {as bs cs : List Char}
    (h1 : charListLt bs as = false) (h2 : charListLt cs bs = false) :
    charListLt cs as = false := by
  have g1 : charListLe as bs = true := by
    rw [charListLe_eq_not_lt, h1]; rfl
  have g2 : charListLe bs cs = true := by
    rw [charListLe_eq_not_lt, h2]; rfl
  have g := charListLe_trans g1 g2
  rw [charListLe_eq_not_lt] at g
  cases h : charListLt cs as
  · rfl
  · rw [h] at g; simp at g

theorem pairwise_insertSorted {α : Type} {lt : α → α → Bool}
    (hasym : ∀ a b, lt a b = true → lt b a = false)
    (hnt : ∀ a b c, lt b a = false → lt c b = false → lt c a = false)
    {l : List α} (x : α) (hl : l.Pairwise (fun a b => lt b a = false)) :
    (insertSorted lt x l).Pairwise (fun a b => lt b a = false) := by
  induction l with
  | nil => simp [insertSorted]
  | cons y ys ih =>
    rcases List.pairwise_cons.mp hl with ⟨hy, hys⟩
    unfold insertSorted
    split
    case isTrue hlt =>
      apply List.pairwise_cons.mpr
      refine ⟨?_, ih hys⟩
      intro z hz
      rcases mem_insertSorted.mp hz with rfl | hzys
      · exact hasym y z hlt
      · exact hy z hzys
    case isFalse hlt =>
      apply List.pairwise_cons.mpr
      refine ⟨?_, hl⟩
      intro z hz
      have hyx : lt y x = false := by
        cases h : lt y x
        · rfl
        · exact absurd h hlt
      rcases List.mem_cons.mp hz with rfl | hzys
      · exact hyx
      · exact hnt x y z hyx (hy z hzys)

theorem pairwise_pySorted {α : Type} {lt : α → α → Bool}
    (hasym : ∀ a b, lt a b = true → lt b a = false)
    (hnt : ∀ a b c, lt b a = false → lt c b = false → lt c a = false)
    (l : List α) :
    (pySorted lt l).Pairwise (fun a b => lt b a = false) := by
  induction l with
  | nil => simp [pySorted]
  | cons z zs ih =>
    unfold pySorted at ih ⊢
    simp only [List.foldr_cons]
    exact pairwise_insertSorted hasym hnt z ih

theorem perm_insertSorted {α : Type} (lt : α → α → Bool) (x : α)
    (l : List α) : (insertSorted lt x l).Perm (x :: l) := by
  induction l with
  | nil => simp [insertSorted]
  | cons y ys ih =>
    unfold insertSorted
    split
    · exact (List.Perm.cons y ih).trans (List.Perm.swap x y ys)
    · exact List.Perm.refl _

theorem perm_pySorted {α : Type} (lt : α → α → Bool) (l : List α) :
    (pySorted lt l).Perm l := by
  induction l with
  | nil => simp [pySorted]
  | cons z zs ih =>
    unfold pySorted at ih ⊢
    simp only [List.foldr_cons]
    exact (perm_insertSorted lt z _).trans (List.Perm.cons z ih)

/-- C8: for every store and prompt id, `tags_for` returns a list sorted by
name ascending with no duplicate tags, containing only tags that currently
exist in the tag store (an association id whose tag is gone is silently
dropped — the function is total, so this is never an error). The hypotheses
say the association set holds no duplicate ids (it is a Python `set`) and
that tag records are keyed by their own id, as `create_tag` guarantees. -/
theorem tags_for_prompt_sorted (s : Storage) (pid : String)
    (hkc : TagKeysConsistent s)
    (hnd : ((dictGet s.prompt_tags pid).getD []).Nodup) :
    (s.get_tags_for_prompt pid).Pairwise (fun a b => tagNameLe a b = true) ∧
    (s.get_tags_for_prompt pid).Nodup ∧
    (∀ t ∈ s.get_tags_for_prompt pid,
      ∃ tid ∈ (dictGet s.prompt_tags pid).getD [], s.get_tag tid = some t) := by
  refine ⟨?_, ?_, ?_⟩
  · have h := @pairwise_pySorted Tag tagNameLt
      (fun a b h => charListLt_asymm h)
      (fun a b c h1 h2 => charListLt_negtrans h1 h2)
      (((dictGet s.prompt_tags pid).getD []).filterMap
        (fun tid => dictGet s.tags tid))
    apply List.Pairwise.imp ?_ h
    intro a b hab
    show charListLe a.name.data b.name.data = true
    have hab2 : charListLt b.name.data a.name.data = false := hab
    rw [charListLe_eq_not_lt, hab2]
    rfl
  · apply (perm_pySorted _ _).nodup_iff.mpr
    apply List.Nodup.filterMap ?_ hnd
    intro a a2 b hb hb2
    simp only [Option.mem_def] at hb hb2
    have h1 : b.id = a := hkc _ (dictGet_mem hb)
    have h2 : b.id = a2 := hkc _ (dictGet_mem hb2)
    rw [← h1, ← h2]
  · intro t ht
    unfold Storage.get_tags_for_prompt at ht
    rw [mem_pySorted] at ht
    simp only [List.mem_filterMap] at ht
    obtain ⟨tid, hmem, hget⟩ := ht
    exact ⟨tid, hmem, hget⟩

/-- Witness for C8: a store where prompt `p1` references a live tag and a
dangling id `dead`; the read is sorted, duplicate-free, and drops `dead`. -/
theorem tags_for_prompt_sorted_witness :
    ((⟨[("p1", ⟨"p1", "T", "somecontent", none, none, 0, 0, []⟩)], [],
        [("t1", ⟨"t1", "zed", 0⟩), ("t2", ⟨"t2", "alpha", 0⟩)],
        [("zed", ⟨"t1", "zed", 0⟩), ("alpha", ⟨"t2", "alpha", 0⟩)],
        [("p1", ["t1", "dead", "t2"])]⟩ : Storage).get_tags_for_prompt
          "p1").Pairwise (fun a b => tagNameLe a b = true) ∧
    ((⟨[("p1", ⟨"p1", "T", "somecontent", none, none, 0, 0, []⟩)], [],
        [("t1", ⟨"t1", "zed", 0⟩), ("t2", ⟨"t2", "alpha", 0⟩)],
        [("zed", ⟨"t1", "zed", 0⟩), ("alpha", ⟨"t2", "alpha", 0⟩)],
        [("p1", ["t1", "dead", "t2"])]⟩ : Storage).get_tags_for_prompt
          "p1").Nodup ∧
    (∀ t ∈ (⟨[("p1", ⟨"p1", "T", "somecontent", none, none, 0, 0, []⟩)], [],
        [("t1", ⟨"t1", "zed", 0⟩), ("t2", ⟨"t2", "alpha", 0⟩)],
        [("zed", ⟨"t1", "zed", 0⟩), ("alpha", ⟨"t2", "alpha", 0⟩)],
        [("p1", ["t1", "dead", "t2"])]⟩ : Storage).get_tags_for_prompt "p1",
      ∃ tid ∈ (dictGet
          (⟨[("p1", ⟨"p1", "T", "somecontent", none, none, 0, 0, []⟩)], [],
            [("t1", ⟨"t1", "zed", 0⟩), ("t2", ⟨"t2", "alpha", 0⟩)],
            [("zed", ⟨"t1", "zed", 0⟩), ("alpha", ⟨"t2", "alpha", 0⟩)],
            [("p1", ["t1", "dead", "t2"])]⟩ : Storage).prompt_tags
          "p1").getD [],
        (⟨[("p1", ⟨"p1", "T", "somecontent", none, none, 0, 0, []⟩)], [],
          [("t1", ⟨"t1", "zed", 0⟩), ("t2", ⟨"t2", "alpha", 0⟩)],
          [("zed", ⟨"t1", "zed", 0⟩), ("alpha", ⟨"t2", "alpha", 0⟩)],
          [("p1", ["t1", "dead", "t2"])]⟩ : Storage).get_tag tid = some t) :=
  tags_for_prompt_sorted _ "p1" (by decide) (by decide)

/-! ## Claim C9: tag-name normalisation is idempotent -/

theorem char_toNat_ofNat {n : Nat} (h : n.isValidChar) :
    (Char.ofNat n).toNat = n := by
  simp [Char.ofNat, h, Char.ofNatAux, Char.toNat, UInt32.toNat]

theorem toLower_toLower (c : Char) :
    Char.toLower (Char.toLower c) = Char.toLower c := by
  unfold Char.toLower
  by_cases h : c.toNat ≥ 65 ∧ c.toNat ≤ 90
  · rw [if_pos h]
    have hval : (c.toNat + 32).isValidChar := Or.inl (by omega)
    have heq : (Char.ofNat (c.toNat + 32)).toNat = c.toNat + 32 :=
      char_toNat_ofNat hval
    rw [if_neg (by omega : ¬((Char.ofNat (c.toNat + 32)).toNat ≥ 65 ∧
      (Char.ofNat (c.toNat + 32)).toNat ≤ 90))]
  · rw [if_neg h, if_neg h]

theorem pyIsSpace_toLower (c : Char) :
    pyIsSpace (Char.toLower c) = pyIsSpace c := by
  by_cases h : c.toNat ≥ 65 ∧ c.toNat ≤ 90
  · have hval : (c.toNat + 32).isValidChar := Or.inl (by omega)
    have heq : (Char.toLower c).toNat = c.toNat + 32 := by
      unfold Char.toLower
      rw [if_pos h]
      exact char_toNat_ofNat hval
    have hL : pyIsSpace (Char.toLower c) = false := by
      simp [pyIsSpace, heq]
      omega
    have hR : pyIsSpace c = false := by
      simp [pyIsSpace]
      omega
    rw [hL, hR]
  · have heq : Char.toLower c = c := by
      unfold Char.toLower
      rw [if_neg h]
    rw [heq]

theorem dropWhile_rdropWhile_self {p : Char → Bool} (x : List Char)
    (hx : x.dropWhile p = x) :
    (x.rdropWhile p).dropWhile p = x.rdropWhile p := by
  cases hy : x.rdropWhile p with
  | nil => simp
  | cons b y2 =>
    have hpre : x.rdropWhile p <+: x := List.rdropWhile_prefix p x
    rw [hy] at hpre
    obtain ⟨t, ht⟩ := hpre
    have hpb : p b = false := by
      by_cases hb : p b
      · exfalso
        have hx2 := hx
        rw [← ht, List.cons_append, List.dropWhile_cons_of_pos hb] at hx2
        have hlen : (List.dropWhile p (y2 ++ t)).length =
            (b :: (y2 ++ t)).length := congrArg List.length hx2
        rw [List.length_cons] at hlen
        have hle := (List.dropWhile_suffix (l := y2 ++ t) p).length_le
        omega
      · cases hpb2 : p b
        · rfl
        · exact absurd hpb2 hb
    rw [List.dropWhile_cons_of_neg (by rw [hpb]; simp)]

theorem pyStripList_idem (l : List Char) :
    pyStripList (pyStripList l) = pyStripList l := by
  unfold pyStripList
  rw [dropWhile_rdropWhile_self _ (List.dropWhile_idempotent _ _),
    List.rdropWhile_idempotent]

theorem pyStripList_map_toLower (l : List Char) :
    pyStripList (l.map Char.toLower) = (pyStripList l).map Char.toLower := by
  unfold pyStripList
  have hpf : (pyIsSpace ∘ Char.toLower) = pyIsSpace := funext pyIsSpace_toLower
  rw [List.dropWhile_map, hpf]
  unfold List.rdropWhile
  rw [← List.map_reverse, List.dropWhile_map, hpf, ← List.map_reverse]

/-- C9: `_normalise_tag_name` (trim then lowercase) is idempotent: applying
it twice to any input string gives the same result as applying it once. -/
theorem normalise_idempotent (raw : String) :
    _normalise_tag_name (_normalise_tag_name raw) = _normalise_tag_name raw := by
  show String.mk
      ((pyStripList ((pyStripList raw.data).map Char.toLower)).map
        Char.toLower) =
    String.mk ((pyStripList raw.data).map Char.toLower)
  rw [pyStripList_map_toLower, pyStripList_idem, List.map_map]
  congr 1
  apply List.map_congr_left
  intro c _
  exact toLower_toLower c

/-! ## Claim C10: any unrecognised match mode behaves as ALL -/

/-- C10: `filter_prompts_by_tags` compares the mode against the exact string
`"any"` and otherwise silently uses subset (ALL) semantics, so every other
`tag_match` value — `"some"`, `"ALL"`, arbitrary garbage — filters exactly
like the default `"all"` and never produces an error (the filter and the
listing stage around it are total functions). -/
theorem tag_match_fallback (prompts : List Prompt) (tag_names : List String)
    (requested : List String) (m : String) (hm : m ≠ "any") :
    filter_prompts_by_tags prompts tag_names m =
      filter_prompts_by_tags prompts tag_names "all" ∧
    list_prompts_tag_stage prompts requested m =
      list_prompts_tag_stage prompts requested "all" := by
  have h1 : (m == "any") = false := beq_eq_false_iff_ne.mpr hm
  have h2 : (("all" : String) == "any") = false := by decide
  have hfilter : ∀ (ps : List Prompt) (tn : List String),
      filter_prompts_by_tags ps tn m = filter_prompts_by_tags ps tn "all" := by
    intro ps tn
    unfold filter_prompts_by_tags
    split
    · rfl
    · simp only [h1, h2]
  refine ⟨hfilter prompts tag_names, ?_⟩
  simp only [list_prompts_tag_stage]
  split
  · apply hfilter
  · rfl

/-- Witness for C10 at the invalid mode string `"some"`. -/
theorem tag_match_fallback_witness :
    filter_prompts_by_tags
        [⟨"p1", "T", "somecontent", none, none, 0, 0,
          [⟨"t1", "a", 0⟩, ⟨"t2", "b", 0⟩]⟩,
         ⟨"p2", "U", "othercontent", none, none, 0, 0, [⟨"t1", "a", 0⟩]⟩]
        ["a", "b"] "some" =
      filter_prompts_by_tags
        [⟨"p1", "T", "somecontent", none, none, 0, 0,
          [⟨"t1", "a", 0⟩, ⟨"t2", "b", 0⟩]⟩,
         ⟨"p2", "U", "othercontent", none, none, 0, 0, [⟨"t1", "a", 0⟩]⟩]
        ["a", "b"] "all" ∧
    list_prompts_tag_stage
        [⟨"p1", "T", "somecontent", none, none, 0, 0,
          [⟨"t1", "a", 0⟩, ⟨"t2", "b", 0⟩]⟩,
         ⟨"p2", "U", "othercontent", none, none, 0, 0, [⟨"t1", "a", 0⟩]⟩]
        ["a", "b"] "some" =
      list_prompts_tag_stage
        [⟨"p1", "T", "somecontent", none, none, 0, 0,
          [⟨"t1", "a", 0⟩, ⟨"t2", "b", 0⟩]⟩,
         ⟨"p2", "U", "othercontent", none, none, 0, 0, [⟨"t1", "a", 0⟩]⟩]
        ["a", "b"] "all" :=
  tag_match_fallback _ ["a", "b"] ["a", "b"] "some" (by decide)

/-! ## Claim C1: the tag filter equals its reference definition -/

theorem string_eq_empty_iff (s : String) : s = "" ↔ s.data = [] := by
  constructor
  · intro h; rw [h]
  · intro h
    cases s with
    | mk d =>
      show String.mk d = String.mk []
      simp only at h
      rw [h]

theorem pyLower_eq_empty_iff (s : String) : pyLower s = "" ↔ s = "" := by
  unfold pyLower
  rw [string_eq_empty_iff, string_eq_empty_iff]
  simp

theorem pyLower_idem (s : String) : pyLower (pyLower s) = pyLower s := by
  show String.mk ((s.data.map Char.toLower).map Char.toLower) = _
  rw [List.map_map]
  congr 1
  apply List.map_congr_left
  intro c _
  exact toLower_toLower c

theorem filter_prompts_by_tags_expand (ps : List Prompt)
    (names : List String) (m : String) (hn : names.map pyLower = names)
    (hne : names ≠ []) :
    filter_prompts_by_tags ps names m =
      if m = "any" then
        ps.filter (fun p =>
          names.any (fun n =>
            (p.tags.map (fun t => pyLower t.name)).contains n))
      else
        ps.filter (fun p =>
          names.all (fun n =>
            (p.tags.map (fun t => pyLower t.name)).contains n)) := by
  simp only [filter_prompts_by_tags]
  rw [if_neg (fun hh => hne (List.isEmpty_iff.mp hh))]
  rw [hn]
  by_cases hm : m = "any"
  · subst hm
    rw [if_pos rfl]
    simp only [show (("any" : String) == "any") = true from rfl, if_true]
  · rw [if_neg hm]
    simp only [beq_eq_false_iff_ne.mpr hm, Bool.false_eq_true, if_false]

theorem filter_prompts_by_tags_sublist (ps : List Prompt)
    (names : List String) (m : String) :
    (filter_prompts_by_tags ps names m).Sublist ps := by
  simp only [filter_prompts_by_tags]
  split
  · exact List.Sublist.refl ps
  · exact List.filter_sublist ps

/-- C1: the tag-filter stage of `list_prompts` (blank removal and
normalisation of the comma-split pieces followed by
`filter_prompts_by_tags`) coincides with the reference filter written from
the specification: an empty normalised request set returns the input
unchanged, mode ANY keeps a prompt iff the request set meets its tag-name
set, any other mode (ALL) keeps it iff the request set is contained in its
tag-name set, names compared lowercase; and the stage always returns a
sublist of its input (relative order preserved). -/
theorem tag_filter_refinement (prompts : List Prompt)
    (requested : List String) (m : String) :
    list_prompts_tag_stage prompts requested m =
      tagFilterRef prompts requested m ∧
    (list_prompts_tag_stage prompts requested m).Sublist prompts := by
  have hLR :
      (requested.filter (fun t => decide (pyStrip t ≠ ""))).map
        (fun t => pyLower (pyStrip t)) =
      (requested.map _normalise_tag_name).filter
        (fun n => decide (n ≠ "")) := by
    conv_rhs => rw [List.filter_map]
    congr 1
    apply List.filter_congr
    intro t _
    show decide (pyStrip t ≠ "") =
      decide (_normalise_tag_name t ≠ "")
    apply decide_eq_decide.mpr
    unfold _normalise_tag_name
    exact not_congr (pyLower_eq_empty_iff (pyStrip t)).symm
  constructor
  · simp only [list_prompts_tag_stage, tagFilterRef, hLR]
    by_cases hR :
        (requested.map _normalise_tag_name).filter
          (fun n => decide (n ≠ "")) = []
    · rw [if_neg (not_not_intro hR), if_pos hR]
    · rw [if_pos hR, if_neg hR]
      have hRlow :
          ((requested.map _normalise_tag_name).filter
            (fun n => decide (n ≠ ""))).map pyLower =
          (requested.map _normalise_tag_name).filter
            (fun n => decide (n ≠ "")) := by
        have hfix : ∀ x ∈ (requested.map _normalise_tag_name).filter
            (fun n => decide (n ≠ "")), pyLower x = id x := by
          intro x hx
          have hx2 := (List.mem_filter.mp hx).1
          obtain ⟨t, _, ht⟩ := List.mem_map.mp hx2
          rw [← ht]
          show pyLower (_normalise_tag_name t) = _normalise_tag_name t
          unfold _normalise_tag_name
          exact pyLower_idem _
        rw [List.map_congr_left hfix, List.map_id]
      exact filter_prompts_by_tags_expand prompts _ m hRlow hR
  · simp only [list_prompts_tag_stage]
    split
    · apply filter_prompts_by_tags_sublist
    · exact List.Sublist.refl prompts

/-! ## Claim C4: length failure is decided by the raw name, not the
normalised one

`models.TagCreate` bounds the raw, pre-normalisation name to 50 characters,
and the handler has no post-normalisation length check at all (normalising
never lengthens a name, so none is needed once the raw bound has passed).
A raw name over 50 characters is rejected by request validation even when
its normalised form is well within bounds, refuting the claim that raw
length never matters. -/

theorem tagNamePat_ne_empty {n : String} (h : tagNamePat n = true) :
    n ≠ "" := by
  intro hn
  rw [hn] at h
  simp [tagNamePat] at h

/-- Counterexample to C4 as stated: the raw name `"ok"` followed by 49
spaces satisfies every stated condition — its trimmed lowercase form `"ok"`
is non-empty, matches `[a-z0-9_-]+`, has length 2 ≤ 50, and is not taken in
the empty store — yet creation fails (with the request-validation error on
the 51-character raw name). -/
theorem create_tag_rawlen_counterexample :
    _normalise_tag_name (String.mk ('o' :: 'k' :: List.replicate 49 ' ')) =
      "ok" ∧
    tagNamePat "ok" = true ∧
    pyLen "ok" ≤ 50 ∧
    emptyStorage.get_tag_by_name "ok" = none ∧
    api_create_tag emptyStorage
      (String.mk ('o' :: 'k' :: List.replicate 49 ' ')) "t1" 0 =
      .error .requestInvalid := by
  refine ⟨by decide, by decide, by decide, by decide, ?_⟩
  decide

/-- C4 (amended): tag creation succeeds for every raw name of length 1 to
50 whose normalised form is non-empty, matches `[a-z0-9_-]+`, has length at
most 50, and is not already taken; a longer raw name is rejected by request
validation regardless of its normalised length. -/
theorem create_tag_succeeds (s : Storage) (raw nid : String) (now : Nat)
    (hlen : 1 ≤ pyLen raw ∧ pyLen raw ≤ 50)
    (hne : _normalise_tag_name raw ≠ "")
    (hpat : tagNamePat (_normalise_tag_name raw) = true)
    (hplen : pyLen (_normalise_tag_name raw) ≤ 50)
    (hfree : s.get_tag_by_name (_normalise_tag_name raw) = none) :
    api_create_tag s raw nid now =
      .ok (⟨nid, _normalise_tag_name raw, now⟩,
        s.create_tag ⟨nid, _normalise_tag_name raw, now⟩) := by
  have h1 : tagCreateValid raw = true := by
    unfold tagCreateValid
    exact decide_eq_true hlen
  simp only [api_create_tag, h1, hpat, hfree, hne, Bool.not_true,
    Option.isSome_none, Bool.false_eq_true, if_false, ite_false]

/-- Witness for the amended C4: the raw name `" GPT-4 "` (leading and
trailing blanks, uppercase) creates the tag `gpt-4` in an empty store. -/
theorem create_tag_succeeds_witness :
    api_create_tag emptyStorage " GPT-4 " "t1" 0 =
      .ok (⟨"t1", _normalise_tag_name " GPT-4 ", 0⟩,
        emptyStorage.create_tag ⟨"t1", _normalise_tag_name " GPT-4 ", 0⟩) :=
  create_tag_succeeds emptyStorage " GPT-4 " "t1" 0 (by decide) (by decide)
    (by decide) (by decide) (by decide)

/-! ## Claim C5: uniqueness under normalisation -/

/-- Counterexample to C5 as stated: after `"Code-Review"` is created, the
raw name `"CODE-REVIEW"` padded to 51 characters with trailing spaces also
normalises to `"code-review"`, but the create fails with the
request-validation error (HTTP 422), not with a `ConflictError`. -/
theorem tag_conflict_counterexample :
    api_create_tag emptyStorage "Code-Review" "t1" 0 =
      .ok (⟨"t1", "code-review", 0⟩,
        ⟨[], [], [("t1", ⟨"t1", "code-review", 0⟩)],
          [("code-review", ⟨"t1", "code-review", 0⟩)], []⟩) ∧
    _normalise_tag_name
      (String.mk (("CODE-REVIEW").data ++ List.replicate 40 ' ')) =
      "code-review" ∧
    api_create_tag
      ⟨[], [], [("t1", ⟨"t1", "code-review", 0⟩)],
        [("code-review", ⟨"t1", "code-review", 0⟩)], []⟩
      (String.mk (("CODE-REVIEW").data ++ List.replicate 40 ' ')) "t2" 1 =
      .error .requestInvalid := by
  refine ⟨by decide, by decide, ?_⟩
  decide

/-- C5 (amended): once a tag with normalised name `n` exists, every
subsequent create whose raw name has length 1 to 50 and normalises to `n`
fails with the duplicate-name conflict (HTTP 409) naming `n`, and — the
handler raising before any mutation — leaves the store unchanged; a raw
name over 50 characters normalising to `n` is instead rejected by request
validation. -/
theorem tag_conflict_on_duplicate (s : Storage) (raw nid : String)
    (now : Nat) (n : String) (tg : Tag)
    (hlen : 1 ≤ pyLen raw ∧ pyLen raw ≤ 50)
    (hnorm : _normalise_tag_name raw = n)
    (hpat : tagNamePat n = true)
    (hstored : s.get_tag_by_name n = some tg) :
    api_create_tag s raw nid now = .error (.conflict n) := by
  have h1 : tagCreateValid raw = true := by
    unfold tagCreateValid
    exact decide_eq_true hlen
  have hne : n ≠ "" := tagNamePat_ne_empty hpat
  simp only [api_create_tag, h1, hnorm, hpat, hstored, hne, Bool.not_true,
    Option.isSome_some, Bool.false_eq_true, if_false, ite_false, if_true,
    ite_true]

/-- Witness for the amended C5, and the example of the specification:
create `"Code-Review"`, then `"CODE-REVIEW "` (trailing space) — the second
create fails with the conflict on `"code-review"`. -/
theorem tag_conflict_on_duplicate_witness :
    api_create_tag
      ⟨[], [], [("t1", ⟨"t1", "code-review", 0⟩)],
        [("code-review", ⟨"t1", "code-review", 0⟩)], []⟩
      "CODE-REVIEW " "t2" 1 = .error (.conflict "code-review") :=
  tag_conflict_on_duplicate _ "CODE-REVIEW " "t2" 1 "code-review"
    ⟨"t1", "code-review", 0⟩ (by decide) (by decide) (by decide) (by decide)

/-! ## Claim C6: atomicity on invalid tag ids -/

/-- C6: when an attach request for an existing prompt contains any unknown
tag id, the handler fails with the 400 error whose payload is the full list
of offending ids (after order-preserving deduplication) — every unknown id
of the request is in that list, not just the first — and, the error being
raised before any mutation, the association set is untouched; and a
prompt-create request carrying any unknown tag id can never return
success, so no prompt record is persisted. -/
theorem invalid_tag_ids_atomic (s : Storage) (pid : String) (p : Prompt)
    (tids : List String) (now : Nat) (d : PromptCreate) (nid : String)
    (hp : s.get_prompt pid = some p)
    (hbad : ∃ tid ∈ tids, s.get_tag tid = none)
    (hbad2 : ∃ tid ∈ d.tag_ids.getD [], s.get_tag tid = none) :
    (api_attach_tags s pid tids now =
      .error (.tagsNotFound
        ((pyDedup tids).filter (fun tid => (s.get_tag tid).isNone))) ∧
      ∀ tid ∈ tids, s.get_tag tid = none →
        tid ∈ (pyDedup tids).filter (fun tid => (s.get_tag tid).isNone)) ∧
    (∀ q s1, api_create_prompt s d nid now ≠ .ok (q, s1)) := by
  obtain ⟨tid0, hmem0, hnone0⟩ := hbad
  have hmemInv : tid0 ∈ (pyDedup tids).filter
      (fun tid => (s.get_tag tid).isNone) := by
    apply List.mem_filter.mpr
    refine ⟨mem_pyDedup.mpr hmem0, ?_⟩
    rw [hnone0]
    rfl
  refine ⟨⟨?_, ?_⟩, ?_⟩
  · have h1 : tagAssignmentValid tids = true := by
      unfold tagAssignmentValid
      apply decide_eq_true
      cases tids with
      | nil => simp at hmem0
      | cons a l => simp
    have h2 : ((pyDedup tids).filter
        (fun tid => (s.get_tag tid).isNone)).isEmpty = false := by
      cases hf : (pyDedup tids).filter (fun tid => (s.get_tag tid).isNone)
      · rw [hf] at hmemInv; simp at hmemInv
      · rfl
    simp only [api_attach_tags, h1, hp, h2, Bool.not_true, Bool.not_false,
      Bool.false_eq_true, if_false, ite_false, if_true, ite_true]
  · intro tid hmem hnone
    apply List.mem_filter.mpr
    refine ⟨mem_pyDedup.mpr hmem, ?_⟩
    rw [hnone]
    rfl
  · intro q s1 hcontra
    obtain ⟨tid1, hmem1, hnone1⟩ := hbad2
    simp only [api_create_prompt] at hcontra
    split at hcontra
    · exact absurd hcontra (by simp)
    split at hcontra
    · exact absurd hcontra (by simp)
    split at hcontra
    case isTrue => exact absurd hcontra (by simp)
    case isFalse hguard =>
      apply hguard
      constructor
      · intro hnil
        rw [hnil] at hmem1
        simp at hmem1
      · intro hnil
        have : tid1 ∈ (d.tag_ids.getD []).filter
            (fun tid => (s.get_tag tid).isNone) := by
          apply List.mem_filter.mpr
          refine ⟨hmem1, ?_⟩
          rw [hnone1]
          rfl
        rw [hnil] at this
        simp at this

/-- Witness for C6: attaching `["t1", "bogus"]` to the existing prompt `p1`
fails listing `bogus`, and creating a prompt with `tag_ids = ["bogus"]`
cannot succeed. -/
theorem invalid_tag_ids_atomic_witness :
    (api_attach_tags
        ⟨[("p1", ⟨"p1", "T", "somecontent", none, none, 0, 0, []⟩)], [],
          [("t1", ⟨"t1", "a", 0⟩)], [("a", ⟨"t1", "a", 0⟩)], []⟩
        "p1" ["t1", "bogus"] 5 =
      .error (.tagsNotFound
        ((pyDedup ["t1", "bogus"]).filter
          (fun tid =>
            ((⟨[("p1", ⟨"p1", "T", "somecontent", none, none, 0, 0, []⟩)],
               [], [("t1", ⟨"t1", "a", 0⟩)], [("a", ⟨"t1", "a", 0⟩)],
               []⟩ : Storage).get_tag tid).isNone))) ∧
      ∀ tid ∈ ["t1", "bogus"],
        (⟨[("p1", ⟨"p1", "T", "somecontent", none, none, 0, 0, []⟩)], [],
          [("t1", ⟨"t1", "a", 0⟩)], [("a", ⟨"t1", "a", 0⟩)],
          []⟩ : Storage).get_tag tid = none →
        tid ∈ (pyDedup ["t1", "bogus"]).filter
          (fun tid =>
            ((⟨[("p1", ⟨"p1", "T", "somecontent", none, none, 0, 0, []⟩)],
               [], [("t1", ⟨"t1", "a", 0⟩)], [("a", ⟨"t1", "a", 0⟩)],
               []⟩ : Storage).get_tag tid).isNone)) ∧
    (∀ q s1,
      api_create_prompt
        ⟨[("p1", ⟨"p1", "T", "somecontent", none, none, 0, 0, []⟩)], [],
          [("t1", ⟨"t1", "a", 0⟩)], [("a", ⟨"t1", "a", 0⟩)], []⟩
        ⟨"U", "othercontent", none, none, some ["bogus"]⟩ "p2" 6 ≠
        .ok (q, s1)) :=
  invalid_tag_ids_atomic _ "p1" ⟨"p1", "T", "somecontent", none, none, 0, 0, []⟩
    ["t1", "bogus"] 5 ⟨"U", "othercontent", none, none, some ["bogus"]⟩ "p2"
    (by decide) ⟨"bogus", by decide, by decide⟩ ⟨"bogus", by decide, by decide⟩
